import Mathlib

/-!
Verification development for the AI chat-app response orchestration core
(`src/server/src/agents/gemini/GeminiAgent.ts`).

The source file contains, separated by document markers:
  1. a non-queuing `GeminiAgent` variant (`handleMessage` fires a full
     processing pass for every accepted message, with no `isProcessing`
     flag or queue);
  2. a queuing `GeminiAgent` variant (`isProcessing` flag, `messageQueue`,
     `processMessage`, 4000 ms inter-call spacing, `apiCallCount`);
  3. `GeminiResponseHandler` (streamed-response handler: fragment loop with
     1000 ms flush throttling, `dispose`, `handleStopGenerating`,
     `handleError`).

The embedding has three layers:
  * `GRH`: the `GeminiResponseHandler` methods as pure functions over an
    explicit `HandlerState`, each returning the successor state together
    with the list of channel operations (message writes / indicator events)
    it issues;
  * `Retry`: the rate-limit retry loop of `processMessage`;
  * `QA` / `V1`: small-step operational semantics of the queuing and
    non-queuing agent variants.  Each `await` in the JavaScript source is a
    suspension point; one step of the relation is one synchronous segment
    between suspension points (JavaScript's single-threaded task model runs
    such segments atomically, and promise-resolution continuations run
    before any newly delivered I/O event, so the `finally`/drain-loop
    continuation at the end of `processMessage` is part of the same atomic
    step as the completion that triggered it).  External events - inbound
    messages, stop signals, stream fragments, completions of channel
    operations and timers, upstream-call outcomes - drive the steps.
-/

/-- Message roles in `chatHistory` (`"user"` / `"model"` in the source). -/
inductive Role where
  | user
  | model
deriving DecidableEq, Repr

/-- One entry of `chatHistory`: `{ role, parts: [{ text }] }`. -/
structure Turn where
  role : Role
  text : String
deriving DecidableEq, Repr

/-- Channel operations issued by the agent and handler.  `updateMessage`
models `chatClient.partialUpdateMessage` (the `time` component records the
moment the write was issued, used to state the flush-throttling property);
`indicatorUpdate` and `indicatorClear` model `channel.sendEvent` with types
`ai_indicator.update` and `ai_indicator.clear`. -/
inductive ChanOp where
  | updateMessage (time : Nat) (msgId : Nat) (text : String)
  | indicatorUpdate (msgId : Nat) (state : String)
  | indicatorClear (msgId : Nat)
deriving DecidableEq, Repr

/-- An inbound `message.new` event, reduced to the fields the agent
inspects: whether the author is the bot itself (`e.user?.id ===
this.chatClient.user?.id`), the `ai_generated` flag, and the text. -/
structure Msg where
  fromSelf : Bool
  aiGenerated : Bool
  text : String
deriving DecidableEq, Repr

/-- The `handleMessage` acceptance filter (both variants): drop messages
from the bot itself, AI-generated messages, and messages with empty text. -/
def accepts (m : Msg) : Bool :=
  !m.fromSelf && !m.aiGenerated && m.text != ""

/-- Does `pat` occur at the start of the character list? -/
def charsStartWith : List Char → List Char → Bool
  | [], _ => true
  | _ :: _, [] => false
  | p :: ps, c :: cs => p == c && charsStartWith ps cs

/-- Does `pat` occur as a contiguous run anywhere in the character list? -/
def charsContain (pat : List Char) : List Char → Bool
  | [] => charsStartWith pat []
  | c :: cs => charsStartWith pat (c :: cs) || charsContain pat cs

/-- Substring test, modelling JavaScript's `String.prototype.includes`:
true exactly when `pat` occurs contiguously in `s`. -/
def containsSub (s pat : String) : Bool :=
  charsContain pat.data s.data

/-- Rate-limit classification of an upstream error description
(`errorMessage.includes("429") || errorMessage.includes("quota") ||
errorMessage.includes("Too Many Requests")`). -/
def isRateLimit (msg : String) : Bool :=
  containsSub msg "429" || containsSub msg "quota" || containsSub msg "Too Many Requests"

/-- Concatenation of the text components of a timed fragment list (the
"full concatenation of all fragment texts" of the spec). -/
def concatTexts : List (Nat × String) → String
  | [] => ""
  | p :: rest => p.2 ++ concatTexts rest

/-- Times of the `updateMessage` operations in a trace. -/
def updTimes : List ChanOp → List Nat
  | [] => []
  | ChanOp.updateMessage t _ _ :: rest => t :: updTimes rest
  | _ :: rest => updTimes rest

namespace GRH

/-- State of one `GeminiResponseHandler`.  `msgId` is the id of the target
chat message (`this.message.id`); `listenerOn` records whether the
`ai_indicator.stop` listener installed by the constructor is still
registered; `onDisposeCalled` records whether the `onDispose` callback
(the agent's `removeHandler`) has been invoked. -/
structure HandlerState where
  msgId : Nat
  message_text : String
  is_done : Bool
  last_update_time : Nat
  listenerOn : Bool
  onDisposeCalled : Bool
deriving DecidableEq, Repr

/-- Handler state right after the constructor ran: empty text, not done,
`last_update_time = 0`, stop listener registered. -/
def initHandler (msgId : Nat) : HandlerState :=
  { msgId := msgId
    message_text := ""
    is_done := false
    last_update_time := 0
    listenerOn := true
    onDisposeCalled := false }

/-- `dispose`: early-return if `is_done` is already set; otherwise set
`is_done`, unregister the stop listener (`chatClient.off`), and call
`onDispose`.  Issues no channel operations. -/
def dispose (s : HandlerState) : HandlerState × List ChanOp :=
  if s.is_done then (s, [])
  else ({ s with is_done := true, listenerOn := false, onDisposeCalled := true }, [])

/-- `handleStopGenerating`: ignore the event if already done or the event's
`message_id` differs from the target message; otherwise set `is_done`,
write the accumulated text (skipped when empty), emit `ai_indicator.clear`,
and call `dispose` (which, `is_done` being already set, early-returns). -/
def handleStopGenerating (now : Nat) (evMsgId : Nat) (s : HandlerState) :
    HandlerState × List ChanOp :=
  if s.is_done || evMsgId != s.msgId then (s, [])
  else
    let s1 := { s with is_done := true }
    let wr := if s1.message_text != "" then
      [ChanOp.updateMessage now s.msgId s1.message_text] else []
    let d := dispose s1
    (d.1, wr ++ [ChanOp.indicatorClear s.msgId] ++ d.2)

/-- `handleError`: early-return if done; otherwise emit the ERROR
indicator, overwrite the message with `error.toString()` (falling back to
`"Error generating the message"` when that is empty), then `dispose`. -/
def handleError (now : Nat) (desc : String) (s : HandlerState) :
    HandlerState × List ChanOp :=
  if s.is_done then (s, [])
  else
    let t := if desc = "" then "Error generating the message" else desc
    let d := dispose s
    (d.1, [ChanOp.indicatorUpdate s.msgId "AI_STATE_ERROR",
           ChanOp.updateMessage now s.msgId t] ++ d.2)

/-- How the fragment stream terminates after delivering its fragments:
normal exhaustion, or an exception with the given description.  The `Nat`
is the time at which the corresponding final channel writes are issued. -/
inductive StreamEnd where
  | normal (tEnd : Nat)
  | error (tEnd : Nat) (desc : String)
deriving DecidableEq, Repr

/-- The body of `run`'s `for await` loop over a list of timed fragments
`(now, text)`: break when `is_done`; for a fragment with non-empty text,
append it to `message_text`, then write the accumulated text to the target
message if more than 1000 ms have elapsed since `last_update_time`
(updating `last_update_time` to `now` after the write). -/
def runLoop (frags : List (Nat × String)) (s : HandlerState) :
    HandlerState × List ChanOp :=
  match frags with
  | [] => (s, [])
  | (now, text) :: rest =>
    if s.is_done then (s, [])
    else if text = "" then runLoop rest s
    else
      let s1 := { s with message_text := s.message_text ++ text }
      if now - s1.last_update_time > 1000 then
        let s2 := { s1 with last_update_time := now }
        let r := runLoop rest s2
        (r.1, ChanOp.updateMessage now s.msgId s1.message_text :: r.2)
      else runLoop rest s1

/-- `run`: iterate the fragment loop; on normal exhaustion, if not done,
write the final accumulated text and emit `ai_indicator.clear`; on a stream
exception, delegate to `handleError`; in both cases return `message_text`
and finally call `dispose`.  The returned triple is (returned text, final
handler state, issued channel operations in order). -/
def run (frags : List (Nat × String)) (ending : StreamEnd) (s : HandlerState) :
    String × HandlerState × List ChanOp :=
  let r := runLoop frags s
  match ending with
  | StreamEnd.normal tEnd =>
    if r.1.is_done then
      let d := dispose r.1
      (r.1.message_text, d.1, r.2 ++ d.2)
    else
      let d := dispose r.1
      (r.1.message_text, d.1,
        r.2 ++ [ChanOp.updateMessage tEnd r.1.msgId r.1.message_text,
                ChanOp.indicatorClear r.1.msgId] ++ d.2)
  | StreamEnd.error tEnd desc =>
    let e := handleError tEnd desc r.1
    let d := dispose e.1
    (e.1.message_text, d.1, r.2 ++ e.2 ++ d.2)

end GRH

namespace Retry

/-- One iteration of the retry loop in `processMessage`
(`for (let attempt = 0; attempt <= maxRetries; attempt++)`, `maxRetries =
3`): try the upstream call for the current attempt; on success break; on
failure, if the error is rate-limit-classified and `attempt < maxRetries`,
sleep `2 ^ (attempt + 1) * 1000` ms and retry, otherwise rethrow.  `call k`
is the outcome of attempt `k`; the result records the final outcome, the
list of backoff delays slept (in ms), and the number of upstream
invocations made.  `fuel` is `maxRetries + 1 - attempt`, which the source
loop bounds structurally. -/
def retryAux (call : Nat → Except String Unit) : Nat → Nat →
    Except String Unit × List Nat × Nat
  | _, 0 => (Except.error "", [], 0)
  | attempt, fuel + 1 =>
    match call attempt with
    | Except.ok r => (Except.ok r, [], 1)
    | Except.error msg =>
      if isRateLimit msg && decide (attempt < 3) then
        let rest := retryAux call (attempt + 1) fuel
        (rest.1, (2 ^ (attempt + 1) * 1000) :: rest.2.1, rest.2.2 + 1)
      else (Except.error msg, [], 1)

/-- The whole retry loop: attempts 0 through 3. -/
def retryCall (call : Nat → Except String Unit) :
    Except String Unit × List Nat × Nat :=
  retryAux call 0 4

/-- The backoff delays slept before attempt `j` when the first `j`
attempts fail with rate-limit errors: `2 s, 4 s, 8 s` in ms. -/
def delaysBefore (j : Nat) : List Nat :=
  (List.range j).map (fun a => 2 ^ (a + 1) * 1000)

end Retry

/-- A handler registered in the agent's `handlers` array, tagged with a
unique identity (object identity in JavaScript; `removeHandler` filters by
that identity). -/
structure HRec where
  hid : Nat
  h : GRH.HandlerState
deriving DecidableEq, Repr

/-- A handler is live when it has not reached a terminal transition. -/
def live (r : HRec) : Bool := !r.h.is_done

/-- Look up a handler by identity. -/
def findH (hid : Nat) (hs : List HRec) : Option GRH.HandlerState :=
  (hs.find? (fun r => r.hid == hid)).map (fun r => r.h)

/-- Update the handler with the given identity. -/
def setH (hid : Nat) (f : GRH.HandlerState → GRH.HandlerState)
    (hs : List HRec) : List HRec :=
  hs.map (fun r => if r.hid == hid then { r with h := f r.h } else r)

/-- `removeHandler`: drop the handler with the given identity. -/
def removeH (hid : Nat) (hs : List HRec) : List HRec :=
  hs.filter (fun r => r.hid != hid)

/-- Deliver a stop signal to one registered handler: the listener runs
`handleStopGenerating` (a listener that has been unregistered no longer
fires). -/
def stopHRec (evMsgId now : Nat) (r : HRec) : HRec × List ChanOp :=
  if r.h.listenerOn then
    let p := GRH.handleStopGenerating now evMsgId r.h
    ({ r with h := p.1 }, p.2)
  else (r, [])

/-- Texts of the user turns of a history, in order. -/
def userTexts (h : List Turn) : List String :=
  (h.filter (fun t => t.role == Role.user)).map (fun t => t.text)

/-- Number of model turns of a history. -/
def modelCount (h : List Turn) : Nat :=
  (h.filter (fun t => t.role == Role.model)).length

namespace QA

/-- Suspension points of the queuing variant's `processMessage` (with the
`GeminiResponseHandler.run` it awaits inlined at the same granularity).
Each constructor is one `await` in the source at which the coroutine is
parked; pre-invocation phases carry the inbound message text (needed when
the upstream call is finally issued), streaming phases carry the identity
of the current handler. -/
inductive Phase where
  | waitSendMessage (mtext : String)
  | waitThinking (mtext : String) (msgId : Nat)
  | waitSpacing (mtext : String) (msgId : Nat)
  | waitGenerating (mtext : String) (msgId : Nat)
  | waitAttempt (msgId : Nat) (attempt : Nat)
  | waitRetryDelay (msgId : Nat) (attempt : Nat)
  | streaming (hid : Nat)
  | waitFlush (hid : Nat) (flushTime : Nat)
  | waitFinalWrite (hid : Nat)
  | waitClear (hid : Nat)
  | waitErrIndicator (hid : Nat) (desc : String)
  | waitErrWrite (hid : Nat) (desc : String)
  | waitCatchIndicator (msgId : Nat)
  | waitCatchWrite (msgId : Nat)
deriving DecidableEq, Repr

/-- External events driving the queuing agent: delivery of an inbound
message or a stop signal, and completions of the operation the coroutine
is awaiting (message creation, event send, timer, upstream-call attempt
outcome, stream fragment / exhaustion / exception, message write).  Each
carries the wall-clock time `Date.now()` reads on resumption where the
source consults it. -/
inductive AEv where
  | inbound (m : Msg) (now : Nat)
  | stop (evMsgId : Nat) (now : Nat)
  | sentMessage (msgId : Nat)
  | sentEvent (now : Nat)
  | timerDone (now : Nat)
  | attemptOk (now : Nat)
  | attemptErr (desc : String) (now : Nat)
  | chunk (now : Nat) (text : String)
  | streamEnd (now : Nat)
  | streamError (desc : String) (now : Nat)
  | writeDone (now : Nat)
deriving DecidableEq, Repr

/-- State of the queuing `GeminiAgent`.  `callsTrace` records, in order,
the inbound message text for each upstream-call episode at the moment
`apiCallCount` is incremented; `invocations` counts individual
`generateContentStream` invocations (retries included); `ops` is the trace
of issued channel operations; `phase = none` means no `processMessage` is
in flight. -/
structure AgentState where
  chatHistory : List Turn
  handlers : List HRec
  messageQueue : List Msg
  isProcessing : Bool
  apiCallCount : Nat
  lastApiCallTs : Nat
  lastInteractionTs : Nat
  invocations : Nat
  callsTrace : List String
  nextHid : Nat
  ops : List ChanOp
  phase : Option Phase
deriving DecidableEq, Repr

/-- The agent right after `init`. -/
def initAgent : AgentState :=
  { chatHistory := []
    handlers := []
    messageQueue := []
    isProcessing := false
    apiCallCount := 0
    lastApiCallTs := 0
    lastInteractionTs := 0
    invocations := 0
    callsTrace := []
    nextHid := 0
    ops := []
    phase := none }

/-- The synchronous prefix of `processMessage`: set `isProcessing`, update
`lastInteractionTs`, append the user turn to `chatHistory`, then suspend on
`channel.sendMessage` (creating the empty AI message). -/
def startEpisode (m : Msg) (now : Nat) (s : AgentState) : AgentState :=
  { s with isProcessing := true
           lastInteractionTs := now
           chatHistory := s.chatHistory ++ [{ role := Role.user, text := m.text }]
           phase := some (Phase.waitSendMessage m.text) }

/-- The synchronous suffix of one `processMessage` call: append the model
turn when the text returned by `handler.run()` is non-empty, release
`isProcessing` (the `finally` block), then - this continuation running
before any new event can be delivered - let `handleMessage`'s drain loop
dequeue and start the next queued message, if any. -/
def finishEpisode (fullText : String) (now : Nat) (s : AgentState) : AgentState :=
  let s1 := if fullText != "" then
    { s with chatHistory := s.chatHistory ++ [{ role := Role.model, text := fullText }] }
    else s
  let s2 := { s1 with isProcessing := false, phase := none }
  match s2.messageQueue with
  | [] => s2
  | m :: rest => startEpisode m now { s2 with messageQueue := rest }

/-- Broadcast a stop signal to every handler whose listener is still
registered. -/
def stopBroadcast (evMsgId now : Nat) (s : AgentState) : AgentState :=
  let pairs := s.handlers.map (stopHRec evMsgId now)
  { s with handlers := pairs.map (fun p => p.1)
           ops := s.ops ++ (pairs.map (fun p => p.2)).flatten }

/-- One step of the queuing agent.  An event that does not match the
current suspension point leaves the state unchanged (no such callback is
pending).  The transitions transcribe `handleMessage` / `processMessage`
of the queuing variant and the `GeminiResponseHandler` methods at `await`
granularity; channel operations are recorded at the moment they are
issued. -/
def step (s : AgentState) (ev : AEv) : AgentState :=
  match ev with
  | AEv.inbound m now =>
    if accepts m then
      if s.isProcessing then { s with messageQueue := s.messageQueue ++ [m] }
      else startEpisode m now s
    else s
  | AEv.stop evMsgId now => stopBroadcast evMsgId now s
  | AEv.sentMessage msgId =>
    match s.phase with
    | some (Phase.waitSendMessage mtext) =>
      { s with phase := some (Phase.waitThinking mtext msgId)
               ops := s.ops ++ [ChanOp.indicatorUpdate msgId "AI_STATE_THINKING"] }
    | _ => s
  | AEv.sentEvent now =>
    match s.phase with
    | some (Phase.waitThinking mtext msgId) =>
      if now - s.lastApiCallTs < 4000 && s.lastApiCallTs > 0 then
        { s with phase := some (Phase.waitSpacing mtext msgId) }
      else
        { s with phase := some (Phase.waitGenerating mtext msgId)
                 ops := s.ops ++ [ChanOp.indicatorUpdate msgId "AI_STATE_GENERATING"] }
    | some (Phase.waitGenerating mtext msgId) =>
      { s with apiCallCount := s.apiCallCount + 1
               lastApiCallTs := now
               callsTrace := s.callsTrace ++ [mtext]
               invocations := s.invocations + 1
               phase := some (Phase.waitAttempt msgId 0) }
    | some (Phase.waitClear hid) =>
      match findH hid s.handlers with
      | none => s
      | some h =>
        if h.is_done then finishEpisode h.message_text now s
        else finishEpisode h.message_text now { s with handlers := removeH hid s.handlers }
    | some (Phase.waitErrIndicator hid desc) =>
      match findH hid s.handlers with
      | none => s
      | some h =>
        { s with ops := s.ops ++ [ChanOp.updateMessage now h.msgId
                   (if desc = "" then "Error generating the message" else desc)]
                 phase := some (Phase.waitErrWrite hid desc) }
    | some (Phase.waitCatchIndicator msgId) =>
      { s with ops := s.ops ++ [ChanOp.updateMessage now msgId
                 "Sorry, I encountered an error. Please try again."]
               phase := some (Phase.waitCatchWrite msgId) }
    | _ => s
  | AEv.timerDone _ =>
    match s.phase with
    | some (Phase.waitSpacing mtext msgId) =>
      { s with phase := some (Phase.waitGenerating mtext msgId)
               ops := s.ops ++ [ChanOp.indicatorUpdate msgId "AI_STATE_GENERATING"] }
    | some (Phase.waitRetryDelay msgId attempt) =>
      { s with invocations := s.invocations + 1
               phase := some (Phase.waitAttempt msgId (attempt + 1)) }
    | _ => s
  | AEv.attemptOk _ =>
    match s.phase with
    | some (Phase.waitAttempt msgId _) =>
      { s with handlers := s.handlers ++ [{ hid := s.nextHid, h := GRH.initHandler msgId }]
               nextHid := s.nextHid + 1
               phase := some (Phase.streaming s.nextHid) }
    | _ => s
  | AEv.attemptErr desc _ =>
    match s.phase with
    | some (Phase.waitAttempt msgId attempt) =>
      if isRateLimit desc && decide (attempt < 3) then
        { s with phase := some (Phase.waitRetryDelay msgId attempt) }
      else
        { s with phase := some (Phase.waitCatchIndicator msgId)
                 ops := s.ops ++ [ChanOp.indicatorUpdate msgId "AI_STATE_ERROR"] }
    | _ => s
  | AEv.chunk now text =>
    match s.phase with
    | some (Phase.streaming hid) =>
      match findH hid s.handlers with
      | none => s
      | some h =>
        if h.is_done then finishEpisode h.message_text now s
        else if text = "" then s
        else
          let h1 := { h with message_text := h.message_text ++ text }
          if now - h1.last_update_time > 1000 then
            { s with handlers := setH hid (fun _ => h1) s.handlers
                     ops := s.ops ++ [ChanOp.updateMessage now h.msgId h1.message_text]
                     phase := some (Phase.waitFlush hid now) }
          else { s with handlers := setH hid (fun _ => h1) s.handlers }
    | _ => s
  | AEv.streamEnd now =>
    match s.phase with
    | some (Phase.streaming hid) =>
      match findH hid s.handlers with
      | none => s
      | some h =>
        if h.is_done then finishEpisode h.message_text now s
        else
          { s with ops := s.ops ++ [ChanOp.updateMessage now h.msgId h.message_text]
                   phase := some (Phase.waitFinalWrite hid) }
    | _ => s
  | AEv.streamError desc now =>
    match s.phase with
    | some (Phase.streaming hid) =>
      match findH hid s.handlers with
      | none => s
      | some h =>
        if h.is_done then finishEpisode h.message_text now s
        else
          { s with ops := s.ops ++ [ChanOp.indicatorUpdate h.msgId "AI_STATE_ERROR"]
                   phase := some (Phase.waitErrIndicator hid desc) }
    | _ => s
  | AEv.writeDone now =>
    match s.phase with
    | some (Phase.waitFlush hid flushTime) =>
      { s with handlers := setH hid
                 (fun h => { h with last_update_time := flushTime }) s.handlers
               phase := some (Phase.streaming hid) }
    | some (Phase.waitFinalWrite hid) =>
      match findH hid s.handlers with
      | none => s
      | some h =>
        { s with ops := s.ops ++ [ChanOp.indicatorClear h.msgId]
                 phase := some (Phase.waitClear hid) }
    | some (Phase.waitErrWrite hid _) =>
      match findH hid s.handlers with
      | none => s
      | some h =>
        if h.is_done then finishEpisode h.message_text now s
        else finishEpisode h.message_text now { s with handlers := removeH hid s.handlers }
    | some (Phase.waitCatchWrite _) => finishEpisode "" now s
    | _ => s

/-- Run the agent from `init` over a sequence of external events. -/
def runAgent (evs : List AEv) : AgentState :=
  evs.foldl step initAgent

/-- The handler identity the in-flight coroutine currently owns, if it is
in a streaming phase. -/
def currentHid : Option Phase → Option Nat
  | some (Phase.streaming hid) => some hid
  | some (Phase.waitFlush hid _) => some hid
  | some (Phase.waitFinalWrite hid) => some hid
  | some (Phase.waitClear hid) => some hid
  | some (Phase.waitErrIndicator hid _) => some hid
  | some (Phase.waitErrWrite hid _) => some hid
  | _ => none

/-- The message text of the in-flight episode if its upstream call has not
been issued yet (the user turn is in `chatHistory` but `callsTrace` does
not contain it yet). -/
def pendingTexts : Option Phase → List String
  | some (Phase.waitSendMessage t) => [t]
  | some (Phase.waitThinking t _) => [t]
  | some (Phase.waitSpacing t _) => [t]
  | some (Phase.waitGenerating t _) => [t]
  | _ => []

/-- 1 when the in-flight episode has already been counted in
`apiCallCount` but has not yet appended its (optional) model turn. -/
def episodeDebt : Option Phase → Nat
  | none => 0
  | some (Phase.waitSendMessage _) => 0
  | some (Phase.waitThinking _ _) => 0
  | some (Phase.waitSpacing _ _) => 0
  | some (Phase.waitGenerating _ _) => 0
  | some _ => 1

/-- Texts of the messages a given event sequence delivers that pass the
acceptance filter, in delivery order. -/
def acceptedTexts (evs : List AEv) : List String :=
  evs.filterMap (fun ev => match ev with
    | AEv.inbound m _ => if accepts m then some m.text else none
    | _ => none)

/-- User turns already in the history plus accepted messages still
queued: every accepted message is in exactly one of the two. -/
def processedTexts (s : AgentState) : List String :=
  userTexts s.chatHistory ++ s.messageQueue.map (fun m => m.text)

/-- Executable test that an event sequence contains no upstream-call
failure, i.e. each `generateContentStream` attempt succeeds (no retries
occur).  Under this condition the number of upstream invocations equals
the number of call episodes. -/
def noAttemptErr (evs : List AEv) : Bool :=
  evs.all (fun ev => match ev with
    | AEv.attemptErr _ _ => false
    | _ => true)

/-- A concrete event sequence for the queuing agent: messages "A" and "B"
arrive back-to-back (so "B" queues while "A" is processed), then both
episodes run to completion; the first call streams one fragment "hi", the
second streams nothing. -/
def demoEvs : List AEv :=
  [AEv.inbound { fromSelf := false, aiGenerated := false, text := "A" } 0,
   AEv.inbound { fromSelf := false, aiGenerated := false, text := "B" } 0,
   AEv.sentMessage 10,
   AEv.sentEvent 0,
   AEv.sentEvent 0,
   AEv.attemptOk 0,
   AEv.chunk 0 "hi",
   AEv.streamEnd 0,
   AEv.writeDone 0,
   AEv.sentEvent 0,
   AEv.sentMessage 11,
   AEv.sentEvent 0,
   AEv.sentEvent 0,
   AEv.attemptOk 0,
   AEv.streamEnd 0,
   AEv.writeDone 0,
   AEv.sentEvent 0]

/-- A concrete queuing-agent state: one episode in flight whose handler
has accumulated the partial text "par" for target message 9. -/
def divergenceState : AgentState :=
  { chatHistory := [{ role := Role.user, text := "Q" }]
    handlers := [{ hid := 0,
                   h := { msgId := 9, message_text := "par", is_done := false,
                          last_update_time := 0, listenerOn := true,
                          onDisposeCalled := false } }]
    messageQueue := []
    isProcessing := true
    apiCallCount := 1
    lastApiCallTs := 0
    lastInteractionTs := 0
    invocations := 1
    callsTrace := ["Q"]
    nextHid := 1
    ops := []
    phase := some (Phase.streaming 0) }

/-- The inductive invariant of the queuing agent:
`isProcessing` mirrors whether a coroutine is in flight; the queue is
empty when idle; handler identities are bounded by `nextHid` and pairwise
distinct; every live handler is the one owned by the current streaming
phase; the user turns are exactly the counted calls plus the pending
episode text; `apiCallCount` counts `callsTrace`; model turns never exceed
started call episodes; model turns are non-empty. -/
structure Inv (s : AgentState) : Prop where
  procPhase : s.isProcessing = s.phase.isSome
  queueIdle : s.phase = none → s.messageQueue = []
  hidBound : ∀ r ∈ s.handlers, r.hid < s.nextHid
  hidDistinct : s.handlers.Pairwise (fun a b => a.hid ≠ b.hid)
  liveCur : ∀ r ∈ s.handlers, live r = true → currentHid s.phase = some r.hid
  callsHist : userTexts s.chatHistory = s.callsTrace ++ pendingTexts s.phase
  callsCount : s.apiCallCount = s.callsTrace.length
  modelDebt : modelCount s.chatHistory + episodeDebt s.phase ≤ s.apiCallCount
  modelNonempty : ∀ t ∈ s.chatHistory, t.role = Role.model → t.text ≠ ""

end QA

namespace V1

/-- Suspension points of the non-queuing variant's `handleMessage` (this
variant has no inter-call spacing wait and no queue; otherwise the body is
the same as `processMessage`). -/
inductive Phase where
  | waitSendMessage
  | waitThinking (msgId : Nat)
  | waitGenerating (msgId : Nat)
  | waitAttempt (msgId : Nat) (attempt : Nat)
  | waitRetryDelay (msgId : Nat) (attempt : Nat)
  | streaming (hid : Nat)
  | waitFlush (hid : Nat) (flushTime : Nat)
  | waitFinalWrite (hid : Nat)
  | waitClear (hid : Nat)
  | waitErrIndicator (hid : Nat) (desc : String)
  | waitErrWrite (hid : Nat) (desc : String)
  | waitCatchIndicator (msgId : Nat)
  | waitCatchWrite (msgId : Nat)
deriving DecidableEq, Repr

/-- One in-flight `handleMessage` invocation.  The non-queuing variant
spawns one per accepted message, so several can be suspended at once. -/
structure Coro where
  cid : Nat
  phase : Phase
deriving DecidableEq, Repr

/-- Completion payloads for resuming a particular coroutine. -/
inductive RPayload where
  | sentMessage (msgId : Nat)
  | sentEvent (now : Nat)
  | timerDone (now : Nat)
  | attemptOk (now : Nat)
  | attemptErr (desc : String) (now : Nat)
  | chunk (now : Nat) (text : String)
  | streamEnd (now : Nat)
  | streamError (desc : String) (now : Nat)
  | writeDone (now : Nat)
deriving DecidableEq, Repr

/-- External events for the non-queuing agent: inbound messages, stop
signals, and completions addressed to one suspended invocation. -/
inductive AEv where
  | inbound (m : Msg) (now : Nat)
  | stop (evMsgId : Nat) (now : Nat)
  | resume (cid : Nat) (p : RPayload)
deriving DecidableEq, Repr

/-- State of the non-queuing `GeminiAgent`. -/
structure AgentState where
  chatHistory : List Turn
  handlers : List HRec
  coros : List Coro
  nextHid : Nat
  nextCid : Nat
  lastInteractionTs : Nat
  ops : List ChanOp
deriving DecidableEq, Repr

/-- The non-queuing agent right after `init`. -/
def initAgent : AgentState :=
  { chatHistory := []
    handlers := []
    coros := []
    nextHid := 0
    nextCid := 0
    lastInteractionTs := 0
    ops := [] }

/-- Replace the phase of coroutine `cid`. -/
def setCoro (cid : Nat) (p : Phase) (cs : List Coro) : List Coro :=
  cs.map (fun c => if c.cid == cid then { c with phase := p } else c)

/-- Remove a finished coroutine. -/
def removeCoro (cid : Nat) (cs : List Coro) : List Coro :=
  cs.filter (fun c => c.cid != cid)

/-- The synchronous suffix of one `handleMessage` invocation of the
non-queuing variant: optional model-turn append, then the invocation
simply returns (there is no flag to release and no queue to drain). -/
def finishCoro (cid : Nat) (fullText : String) (s : AgentState) : AgentState :=
  let s1 := if fullText != "" then
    { s with chatHistory := s.chatHistory ++ [{ role := Role.model, text := fullText }] }
    else s
  { s1 with coros := removeCoro cid s1.coros }

/-- Resume coroutine `cid` with completion payload `p`.  The transitions
transcribe the non-queuing `handleMessage` body (identical to
`processMessage` except: no spacing wait, no `apiCallCount` /
`lastApiCallTs` bookkeeping) with `GeminiResponseHandler.run` inlined. -/
def resumeCoro (cid : Nat) (p : RPayload) (s : AgentState) : AgentState :=
  match (s.coros.find? (fun c => c.cid == cid)).map (fun c => c.phase) with
  | none => s
  | some ph =>
    match ph, p with
    | Phase.waitSendMessage, RPayload.sentMessage msgId =>
      { s with coros := setCoro cid (Phase.waitThinking msgId) s.coros
               ops := s.ops ++ [ChanOp.indicatorUpdate msgId "AI_STATE_THINKING"] }
    | Phase.waitThinking msgId, RPayload.sentEvent _ =>
      { s with coros := setCoro cid (Phase.waitGenerating msgId) s.coros
               ops := s.ops ++ [ChanOp.indicatorUpdate msgId "AI_STATE_GENERATING"] }
    | Phase.waitGenerating msgId, RPayload.sentEvent _ =>
      { s with coros := setCoro cid (Phase.waitAttempt msgId 0) s.coros }
    | Phase.waitAttempt msgId _, RPayload.attemptOk _ =>
      { s with handlers := s.handlers ++ [{ hid := s.nextHid, h := GRH.initHandler msgId }]
               nextHid := s.nextHid + 1
               coros := setCoro cid (Phase.streaming s.nextHid) s.coros }
    | Phase.waitAttempt msgId attempt, RPayload.attemptErr desc _ =>
      if isRateLimit desc && decide (attempt < 3) then
        { s with coros := setCoro cid (Phase.waitRetryDelay msgId attempt) s.coros }
      else
        { s with coros := setCoro cid (Phase.waitCatchIndicator msgId) s.coros
                 ops := s.ops ++ [ChanOp.indicatorUpdate msgId "AI_STATE_ERROR"] }
    | Phase.waitRetryDelay msgId attempt, RPayload.timerDone _ =>
      { s with coros := setCoro cid (Phase.waitAttempt msgId (attempt + 1)) s.coros }
    | Phase.streaming hid, RPayload.chunk now text =>
      match findH hid s.handlers with
      | none => s
      | some h =>
        if h.is_done then finishCoro cid h.message_text s
        else if text = "" then s
        else
          let h1 := { h with message_text := h.message_text ++ text }
          if now - h1.last_update_time > 1000 then
            { s with handlers := setH hid (fun _ => h1) s.handlers
                     ops := s.ops ++ [ChanOp.updateMessage now h.msgId h1.message_text]
                     coros := setCoro cid (Phase.waitFlush hid now) s.coros }
          else { s with handlers := setH hid (fun _ => h1) s.handlers }
    | Phase.waitFlush hid flushTime, RPayload.writeDone _ =>
      { s with handlers := setH hid
                 (fun h => { h with last_update_time := flushTime }) s.handlers
               coros := setCoro cid (Phase.streaming hid) s.coros }
    | Phase.streaming hid, RPayload.streamEnd now =>
      match findH hid s.handlers with
      | none => s
      | some h =>
        if h.is_done then finishCoro cid h.message_text s
        else
          { s with ops := s.ops ++ [ChanOp.updateMessage now h.msgId h.message_text]
                   coros := setCoro cid (Phase.waitFinalWrite hid) s.coros }
    | Phase.waitFinalWrite hid, RPayload.writeDone _ =>
      match findH hid s.handlers with
      | none => s
      | some h =>
        { s with ops := s.ops ++ [ChanOp.indicatorClear h.msgId]
                 coros := setCoro cid (Phase.waitClear hid) s.coros }
    | Phase.waitClear hid, RPayload.sentEvent _ =>
      match findH hid s.handlers with
      | none => s
      | some h =>
        if h.is_done then finishCoro cid h.message_text s
        else finishCoro cid h.message_text { s with handlers := removeH hid s.handlers }
    | Phase.streaming hid, RPayload.streamError desc _ =>
      match findH hid s.handlers with
      | none => s
      | some h =>
        if h.is_done then finishCoro cid h.message_text s
        else
          { s with ops := s.ops ++ [ChanOp.indicatorUpdate h.msgId "AI_STATE_ERROR"]
                   coros := setCoro cid (Phase.waitErrIndicator hid desc) s.coros }
    | Phase.waitErrIndicator hid desc, RPayload.sentEvent now =>
      match findH hid s.handlers with
      | none => s
      | some h =>
        { s with ops := s.ops ++ [ChanOp.updateMessage now h.msgId
                   (if desc = "" then "Error generating the message" else desc)]
                 coros := setCoro cid (Phase.waitErrWrite hid desc) s.coros }
    | Phase.waitErrWrite hid _, RPayload.writeDone _ =>
      match findH hid s.handlers with
      | none => s
      | some h =>
        if h.is_done then finishCoro cid h.message_text s
        else finishCoro cid h.message_text { s with handlers := removeH hid s.handlers }
    | Phase.waitCatchIndicator msgId, RPayload.sentEvent now =>
      { s with ops := s.ops ++ [ChanOp.updateMessage now msgId
                 "Sorry, I encountered an error. Please try again."]
               coros := setCoro cid (Phase.waitCatchWrite msgId) s.coros }
    | Phase.waitCatchWrite _, RPayload.writeDone _ => finishCoro cid "" s
    | _, _ => s

/-- One step of the non-queuing agent.  An accepted inbound message
*unconditionally* runs the synchronous prefix of `handleMessage`: update
`lastInteractionTs`, append the user turn, and suspend on
`channel.sendMessage` - there is no `isProcessing` check, no queue, and no
drop. -/
def step (s : AgentState) (ev : AEv) : AgentState :=
  match ev with
  | AEv.inbound m now =>
    if accepts m then
      { s with lastInteractionTs := now
               chatHistory := s.chatHistory ++ [{ role := Role.user, text := m.text }]
               coros := s.coros ++ [{ cid := s.nextCid, phase := Phase.waitSendMessage }]
               nextCid := s.nextCid + 1 }
    else s
  | AEv.stop evMsgId now =>
    let pairs := s.handlers.map (stopHRec evMsgId now)
    { s with handlers := pairs.map (fun p => p.1)
             ops := s.ops ++ (pairs.map (fun p => p.2)).flatten }
  | AEv.resume cid p => resumeCoro cid p s

/-- Run the non-queuing agent from `init` over a sequence of events. -/
def runAgent (evs : List AEv) : AgentState :=
  evs.foldl step initAgent

/-- A concrete event sequence for the non-queuing variant: message "A"
arrives and is carried to the point where its upstream call streams; then
message "B" arrives while that call is still in flight and is carried to
the same point. -/
def overlapEvs : List AEv :=
  [AEv.inbound { fromSelf := false, aiGenerated := false, text := "A" } 0,
   AEv.resume 0 (RPayload.sentMessage 100),
   AEv.resume 0 (RPayload.sentEvent 0),
   AEv.resume 0 (RPayload.sentEvent 0),
   AEv.resume 0 (RPayload.attemptOk 0),
   AEv.inbound { fromSelf := false, aiGenerated := false, text := "B" } 0,
   AEv.resume 1 (RPayload.sentMessage 101),
   AEv.resume 1 (RPayload.sentEvent 0),
   AEv.resume 1 (RPayload.sentEvent 0),
   AEv.resume 1 (RPayload.attemptOk 0)]

end V1

/-! ### Basic lemmas about the response handler -/

theorem GRH.dispose_not_done (s : GRH.HandlerState) (h : s.is_done = false) :
    GRH.dispose s
      = ({ s with is_done := true, listenerOn := false, onDisposeCalled := true }, []) := by
  simp [GRH.dispose, h]

theorem GRH.dispose_done (s : GRH.HandlerState) (h : s.is_done = true) :
    GRH.dispose s = (s, []) := by
  simp [GRH.dispose, h]

theorem GRH.stop_match (now : Nat) (s : GRH.HandlerState) (h : s.is_done = false) :
    GRH.handleStopGenerating now s.msgId s
      = ({ s with is_done := true },
         (if s.message_text != "" then
           [ChanOp.updateMessage now s.msgId s.message_text] else [])
         ++ [ChanOp.indicatorClear s.msgId]) := by
  simp [GRH.handleStopGenerating, h, GRH.dispose]

theorem GRH.stop_mismatch (now evMsgId : Nat) (s : GRH.HandlerState)
    (h : evMsgId ≠ s.msgId) :
    GRH.handleStopGenerating now evMsgId s = (s, []) := by
  simp [GRH.handleStopGenerating, h]

theorem GRH.stop_done (now evMsgId : Nat) (s : GRH.HandlerState)
    (h : s.is_done = true) :
    GRH.handleStopGenerating now evMsgId s = (s, []) := by
  simp [GRH.handleStopGenerating, h]

theorem GRH.handleError_done (now : Nat) (desc : String) (s : GRH.HandlerState)
    (h : s.is_done = true) :
    GRH.handleError now desc s = (s, []) := by
  simp [GRH.handleError, h]

theorem GRH.handleError_not_done (now : Nat) (desc : String) (s : GRH.HandlerState)
    (h : s.is_done = false) :
    GRH.handleError now desc s
      = ({ s with is_done := true, listenerOn := false, onDisposeCalled := true },
         [ChanOp.indicatorUpdate s.msgId "AI_STATE_ERROR",
          ChanOp.updateMessage now s.msgId
            (if desc = "" then "Error generating the message" else desc)]) := by
  simp [GRH.handleError, h, GRH.dispose]

theorem GRH.runLoop_done (frags : List (Nat × String)) (s : GRH.HandlerState)
    (h : s.is_done = true) : GRH.runLoop frags s = (s, []) := by
  cases frags with
  | nil => rfl
  | cons p rest =>
    obtain ⟨now, text⟩ := p
    simp [GRH.runLoop, h]

theorem GRH.runLoop_spec (frags : List (Nat × String)) (s : GRH.HandlerState)
    (h : s.is_done = false) :
    (GRH.runLoop frags s).1.msgId = s.msgId
  ∧ (GRH.runLoop frags s).1.is_done = false
  ∧ (GRH.runLoop frags s).1.listenerOn = s.listenerOn
  ∧ (GRH.runLoop frags s).1.onDisposeCalled = s.onDisposeCalled
  ∧ (GRH.runLoop frags s).1.message_text = s.message_text ++ concatTexts frags
  ∧ List.Chain (fun a b => a + 1000 < b) s.last_update_time
      (updTimes (GRH.runLoop frags s).2) := by
  induction frags generalizing s with
  | nil =>
    simp [GRH.runLoop, concatTexts, updTimes, h, List.Chain.nil]
  | cons p rest ih =>
    obtain ⟨now, text⟩ := p
    by_cases ht : text = ""
    · have hrec := ih s h
      simpa [GRH.runLoop, h, ht, concatTexts] using hrec
    · by_cases hg : now - s.last_update_time > 1000
      · have hrec := ih { s with message_text := s.message_text ++ text,
                                 last_update_time := now } h
        have hstep : GRH.runLoop ((now, text) :: rest) s
            = ((GRH.runLoop rest { s with message_text := s.message_text ++ text,
                                          last_update_time := now }).1,
               ChanOp.updateMessage now s.msgId (s.message_text ++ text)
                 :: (GRH.runLoop rest { s with message_text := s.message_text ++ text,
                                               last_update_time := now }).2) := by
          simp [GRH.runLoop, h, ht, hg]
        rw [hstep]
        obtain ⟨h1, h2, h3, h4, h5, h6⟩ := hrec
        refine ⟨by simpa using h1, by simpa using h2, by simpa using h3,
                by simpa using h4, ?_, ?_⟩
        · show (GRH.runLoop rest _).1.message_text = _
          rw [h5]
          simp [concatTexts, String.append_assoc]
        · simp only [updTimes]
          exact List.Chain.cons (by omega) (by simpa using h6)
      · have hrec := ih { s with message_text := s.message_text ++ text } h
        have hstep : GRH.runLoop ((now, text) :: rest) s
            = GRH.runLoop rest { s with message_text := s.message_text ++ text } := by
          simp [GRH.runLoop, h, ht, hg]
        rw [hstep]
        obtain ⟨h1, h2, h3, h4, h5, h6⟩ := hrec
        refine ⟨by simpa using h1, by simpa using h2, by simpa using h3,
                by simpa using h4, ?_, by simpa using h6⟩
        rw [h5]
        simp [concatTexts, String.append_assoc]

theorem GRH.run_normal_init (msgId tEnd : Nat) (frags : List (Nat × String)) :
    (GRH.run frags (GRH.StreamEnd.normal tEnd) (GRH.initHandler msgId)).1
      = concatTexts frags
  ∧ (GRH.run frags (GRH.StreamEnd.normal tEnd) (GRH.initHandler msgId)).2.1.msgId = msgId
  ∧ (GRH.run frags (GRH.StreamEnd.normal tEnd) (GRH.initHandler msgId)).2.1.message_text
      = concatTexts frags
  ∧ (GRH.run frags (GRH.StreamEnd.normal tEnd) (GRH.initHandler msgId)).2.1.is_done = true
  ∧ (GRH.run frags (GRH.StreamEnd.normal tEnd) (GRH.initHandler msgId)).2.1.listenerOn = false
  ∧ (GRH.run frags (GRH.StreamEnd.normal tEnd)
       (GRH.initHandler msgId)).2.1.onDisposeCalled = true
  ∧ (GRH.run frags (GRH.StreamEnd.normal tEnd) (GRH.initHandler msgId)).2.2
      = (GRH.runLoop frags (GRH.initHandler msgId)).2
        ++ [ChanOp.updateMessage tEnd msgId (concatTexts frags),
            ChanOp.indicatorClear msgId] := by
  obtain ⟨h1, h2, h3, h4, h5, _⟩ :=
    GRH.runLoop_spec frags (GRH.initHandler msgId) rfl
  have hinit : (GRH.initHandler msgId).message_text = "" := rfl
  have hmsg : (GRH.runLoop frags (GRH.initHandler msgId)).1.message_text
      = concatTexts frags := by
    rw [h5, hinit, String.empty_append]
  have hd := GRH.dispose_not_done (GRH.runLoop frags (GRH.initHandler msgId)).1 h2
  simp only [GRH.run, h2, Bool.false_eq_true, if_false, hd]
  refine ⟨hmsg, ?_, ?_, trivial, trivial, trivial, ?_⟩
  · simpa using h1
  · simpa using hmsg
  · rw [hmsg, h1]
    simp [GRH.initHandler]

theorem GRH.run_error_init (msgId tEnd : Nat) (desc : String)
    (frags : List (Nat × String)) :
    (GRH.run frags (GRH.StreamEnd.error tEnd desc) (GRH.initHandler msgId)).1
      = concatTexts frags
  ∧ (GRH.run frags (GRH.StreamEnd.error tEnd desc) (GRH.initHandler msgId)).2.1.msgId = msgId
  ∧ (GRH.run frags (GRH.StreamEnd.error tEnd desc) (GRH.initHandler msgId)).2.1.message_text
      = concatTexts frags
  ∧ (GRH.run frags (GRH.StreamEnd.error tEnd desc) (GRH.initHandler msgId)).2.1.is_done = true
  ∧ (GRH.run frags (GRH.StreamEnd.error tEnd desc)
       (GRH.initHandler msgId)).2.1.listenerOn = false
  ∧ (GRH.run frags (GRH.StreamEnd.error tEnd desc)
       (GRH.initHandler msgId)).2.1.onDisposeCalled = true
  ∧ (GRH.run frags (GRH.StreamEnd.error tEnd desc) (GRH.initHandler msgId)).2.2
      = (GRH.runLoop frags (GRH.initHandler msgId)).2
        ++ [ChanOp.indicatorUpdate msgId "AI_STATE_ERROR",
            ChanOp.updateMessage tEnd msgId
              (if desc = "" then "Error generating the message" else desc)] := by
  obtain ⟨h1, h2, h3, h4, h5, _⟩ :=
    GRH.runLoop_spec frags (GRH.initHandler msgId) rfl
  have hinit : (GRH.initHandler msgId).message_text = "" := rfl
  have hmsg : (GRH.runLoop frags (GRH.initHandler msgId)).1.message_text
      = concatTexts frags := by
    rw [h5, hinit, String.empty_append]
  have he := GRH.handleError_not_done tEnd desc
    (GRH.runLoop frags (GRH.initHandler msgId)).1 h2
  have hd : GRH.dispose { (GRH.runLoop frags (GRH.initHandler msgId)).1 with
      is_done := true, listenerOn := false, onDisposeCalled := true }
      = ({ (GRH.runLoop frags (GRH.initHandler msgId)).1 with
           is_done := true, listenerOn := false, onDisposeCalled := true }, []) :=
    GRH.dispose_done _ rfl
  simp only [GRH.run, he, hd]
  refine ⟨hmsg, by simpa using h1, by simpa using hmsg, trivial, trivial, trivial, ?_⟩
  rw [h1]
  simp [GRH.initHandler]

theorem GRH.run_done (frags : List (Nat × String)) (ending : GRH.StreamEnd)
    (s : GRH.HandlerState) (h : s.is_done = true) :
    GRH.run frags ending s = (s.message_text, s, []) := by
  cases ending with
  | normal tEnd =>
    simp [GRH.run, GRH.runLoop_done frags s h, h, GRH.dispose_done s h]
  | error tEnd desc =>
    simp [GRH.run, GRH.runLoop_done frags s h, GRH.handleError_done _ _ _ h,
      GRH.dispose_done s h]

theorem GRH.run_is_done (frags : List (Nat × String)) (ending : GRH.StreamEnd)
    (s : GRH.HandlerState) : (GRH.run frags ending s).2.1.is_done = true := by
  by_cases h : s.is_done = true
  · rw [GRH.run_done frags ending s h]
    simpa using h
  · have h' : s.is_done = false := by simpa using h
    obtain ⟨_, h2, _, _, _, _⟩ := GRH.runLoop_spec frags s h'
    cases ending with
    | normal tEnd =>
      simp [GRH.run, h2, GRH.dispose_not_done _ h2]
    | error tEnd desc =>
      have he := GRH.handleError_not_done tEnd desc _ h2
      simp [GRH.run, he, GRH.dispose]

theorem GRH.runLoop_ops_updates (frags : List (Nat × String)) (s : GRH.HandlerState) :
    ∀ op ∈ (GRH.runLoop frags s).2, ∃ t txt, op = ChanOp.updateMessage t s.msgId txt := by
  induction frags generalizing s with
  | nil => simp [GRH.runLoop]
  | cons p rest ih =>
    obtain ⟨now, text⟩ := p
    by_cases h : s.is_done = true
    · simp [GRH.runLoop, h]
    · have h' : s.is_done = false := by simpa using h
      by_cases ht : text = ""
      · simpa [GRH.runLoop, h', ht] using ih s
      · by_cases hg : now - s.last_update_time > 1000
        · have hstep : GRH.runLoop ((now, text) :: rest) s
              = ((GRH.runLoop rest { s with message_text := s.message_text ++ text,
                                            last_update_time := now }).1,
                 ChanOp.updateMessage now s.msgId (s.message_text ++ text)
                   :: (GRH.runLoop rest { s with message_text := s.message_text ++ text,
                                                 last_update_time := now }).2) := by
            simp [GRH.runLoop, h', ht, hg]
          rw [hstep]
          intro op hop
          rcases List.mem_cons.mp hop with hop | hop
          · exact ⟨now, s.message_text ++ text, hop⟩
          · simpa using ih { s with message_text := s.message_text ++ text,
                                    last_update_time := now } op hop
        · have hstep : GRH.runLoop ((now, text) :: rest) s
              = GRH.runLoop rest { s with message_text := s.message_text ++ text } := by
            simp [GRH.runLoop, h', ht, hg]
          rw [hstep]
          intro op hop
          simpa using ih { s with message_text := s.message_text ++ text } op hop

theorem Retry.delaysBefore_vals :
    Retry.delaysBefore 0 = []
  ∧ Retry.delaysBefore 1 = [2000]
  ∧ Retry.delaysBefore 2 = [2000, 4000]
  ∧ Retry.delaysBefore 3 = [2000, 4000, 8000] := by
  refine ⟨rfl, rfl, rfl, rfl⟩

/-! ### Claim theorems about the response streamer -/

/-- C3: for every finite fragment stream, on normal exhaustion the Response
Streamer (i) returns the full concatenation of all fragment texts, (ii)
issues exactly the throttled intermediate writes followed by a final write
of the full concatenation and then an indicator-clear event, (iii) spaces
consecutive intermediate writes more than 1000 ms apart (so at most one
write occurs per 1000 ms window even when fragments arrive faster), and
(iv) every intermediate operation is a message write to the target
message. -/
theorem streamer_throttled_flush_and_final_concat (msgId tEnd : Nat)
    (frags : List (Nat × String)) :
    (GRH.run frags (GRH.StreamEnd.normal tEnd) (GRH.initHandler msgId)).1
      = concatTexts frags
  ∧ (GRH.run frags (GRH.StreamEnd.normal tEnd) (GRH.initHandler msgId)).2.2
      = (GRH.runLoop frags (GRH.initHandler msgId)).2
        ++ [ChanOp.updateMessage tEnd msgId (concatTexts frags),
            ChanOp.indicatorClear msgId]
  ∧ List.Chain (fun a b => a + 1000 < b) 0
      (updTimes (GRH.runLoop frags (GRH.initHandler msgId)).2)
  ∧ (∀ op ∈ (GRH.runLoop frags (GRH.initHandler msgId)).2,
       ∃ t txt, op = ChanOp.updateMessage t msgId txt) := by
  obtain ⟨h1, _, _, _, _, _, h7⟩ := GRH.run_normal_init msgId tEnd frags
  obtain ⟨_, _, _, _, _, hchain⟩ :=
    GRH.runLoop_spec frags (GRH.initHandler msgId) rfl
  refine ⟨h1, h7, by simpa [GRH.initHandler] using hchain, ?_⟩
  simpa [GRH.initHandler] using GRH.runLoop_ops_updates frags (GRH.initHandler msgId)

/-- C4: a stop signal carrying the active streamer's target message id,
arriving before the streamer is done, marks it done, writes the text
accumulated so far (the write is skipped when that text is empty), emits an
indicator-clear event, and invokes dispose; a stop signal carrying any
other message id, or arriving after the streamer is done, is a no-op with
no state change and no channel writes. -/
theorem streamer_stop_signal_semantics (now evMsgId : Nat) (s : GRH.HandlerState) :
    (s.is_done = false → evMsgId = s.msgId →
       GRH.handleStopGenerating now evMsgId s
         = ({ s with is_done := true },
            (if s.message_text != "" then
              [ChanOp.updateMessage now s.msgId s.message_text] else [])
            ++ [ChanOp.indicatorClear s.msgId]))
  ∧ (evMsgId ≠ s.msgId → GRH.handleStopGenerating now evMsgId s = (s, []))
  ∧ (s.is_done = true → GRH.handleStopGenerating now evMsgId s = (s, [])) := by
  refine ⟨?_, ?_, ?_⟩
  · intro h he
    subst he
    exact GRH.stop_match now s h
  · exact GRH.stop_mismatch now evMsgId s
  · exact GRH.stop_done now evMsgId s

/-- Witness for C4: a matching stop on a live streamer with text "hi"
writes the text and clears the indicator; a mismatched stop is a no-op. -/
theorem streamer_stop_signal_semantics_witness :
    GRH.handleStopGenerating 5 7
        { msgId := 7, message_text := "hi", is_done := false,
          last_update_time := 0, listenerOn := true, onDisposeCalled := false }
      = ({ msgId := 7, message_text := "hi", is_done := true,
           last_update_time := 0, listenerOn := true, onDisposeCalled := false },
         [ChanOp.updateMessage 5 7 "hi", ChanOp.indicatorClear 7])
  ∧ GRH.handleStopGenerating 5 8
        { msgId := 7, message_text := "hi", is_done := false,
          last_update_time := 0, listenerOn := true, onDisposeCalled := false }
      = ({ msgId := 7, message_text := "hi", is_done := false,
           last_update_time := 0, listenerOn := true, onDisposeCalled := false }, []) := by
  constructor
  · exact ((streamer_stop_signal_semantics 5 7
      { msgId := 7, message_text := "hi", is_done := false,
        last_update_time := 0, listenerOn := true, onDisposeCalled := false }).1
      rfl rfl).trans (by decide)
  · exact ((streamer_stop_signal_semantics 5 8
      { msgId := 7, message_text := "hi", is_done := false,
        last_update_time := 0, listenerOn := true, onDisposeCalled := false }).2.1
      (by decide)).trans (by decide)

/-- C5: dispose issues no channel operations and is idempotent; every run
of the streamer ends with the done flag set; and once the done flag is set
(after any terminal path) every further entry point - dispose, the stop
handler, the error handler, and the whole fragment-stream run - leaves the
state unchanged and issues no channel operations. -/
theorem streamer_termination_idempotent (s : GRH.HandlerState)
    (now evMsgId : Nat) (desc : String) (frags : List (Nat × String))
    (ending : GRH.StreamEnd) :
    (GRH.dispose s).1.is_done = true
  ∧ (GRH.dispose s).2 = []
  ∧ GRH.dispose (GRH.dispose s).1 = ((GRH.dispose s).1, [])
  ∧ (GRH.run frags ending s).2.1.is_done = true
  ∧ (s.is_done = true →
        GRH.dispose s = (s, [])
      ∧ GRH.handleStopGenerating now evMsgId s = (s, [])
      ∧ GRH.handleError now desc s = (s, [])
      ∧ GRH.run frags ending s = (s.message_text, s, [])) := by
  have hd1 : (GRH.dispose s).1.is_done = true := by
    by_cases h : s.is_done = true
    · rw [GRH.dispose_done s h]
      exact h
    · have h' : s.is_done = false := by simpa using h
      rw [GRH.dispose_not_done s h']
  have hd2 : (GRH.dispose s).2 = [] := by
    by_cases h : s.is_done = true
    · rw [GRH.dispose_done s h]
    · have h' : s.is_done = false := by simpa using h
      rw [GRH.dispose_not_done s h']
  refine ⟨hd1, hd2, GRH.dispose_done _ hd1, GRH.run_is_done frags ending s, ?_⟩
  intro h
  exact ⟨GRH.dispose_done s h, GRH.stop_done now evMsgId s h,
         GRH.handleError_done now desc s h, GRH.run_done frags ending s h⟩

/-- Witness for C5: on a streamer already done (after a stop), dispose,
the stop handler, the error handler and a further run are all no-ops. -/
theorem streamer_termination_idempotent_witness :
    GRH.dispose
        { msgId := 2, message_text := "t", is_done := true,
          last_update_time := 0, listenerOn := true, onDisposeCalled := false }
      = ({ msgId := 2, message_text := "t", is_done := true,
           last_update_time := 0, listenerOn := true, onDisposeCalled := false }, [])
  ∧ GRH.run [(5, "x")] (GRH.StreamEnd.normal 9)
        { msgId := 2, message_text := "t", is_done := true,
          last_update_time := 0, listenerOn := true, onDisposeCalled := false }
      = ("t",
         { msgId := 2, message_text := "t", is_done := true,
           last_update_time := 0, listenerOn := true, onDisposeCalled := false }, []) := by
  have h := (streamer_termination_idempotent
    { msgId := 2, message_text := "t", is_done := true,
      last_update_time := 0, listenerOn := true, onDisposeCalled := false }
    0 0 "" [(5, "x")] (GRH.StreamEnd.normal 9)).2.2.2.2 rfl
  exact ⟨h.1, h.2.2.2⟩

/-- C7: when the fragment stream raises an exception (after any prefix of
fragments) on a streamer that is not yet done, the streamer emits an
indicator-error event, overwrites the target message with the error's
description - or with the generic fallback text when that description is
empty - and ends disposed; `run` returns the accumulated text normally (the
exception is contained and never propagates past the agent boundary). -/
theorem streamer_upstream_error_contained (msgId tEnd : Nat) (desc : String)
    (frags : List (Nat × String)) :
    (GRH.run frags (GRH.StreamEnd.error tEnd desc) (GRH.initHandler msgId)).2.2
      = (GRH.runLoop frags (GRH.initHandler msgId)).2
        ++ [ChanOp.indicatorUpdate msgId "AI_STATE_ERROR",
            ChanOp.updateMessage tEnd msgId
              (if desc = "" then "Error generating the message" else desc)]
  ∧ (GRH.run frags (GRH.StreamEnd.error tEnd desc) (GRH.initHandler msgId)).1
      = concatTexts frags
  ∧ (GRH.run frags (GRH.StreamEnd.error tEnd desc) (GRH.initHandler msgId)).2.1.is_done
      = true := by
  obtain ⟨h1, _, _, h4, _, _, h7⟩ := GRH.run_error_init msgId tEnd desc frags
  exact ⟨h7, h1, h4⟩

/-- C8 (counterexample): the claim that every terminal path performs
exactly one finalization write plus one indicator event and then always
unregisters the stop listener and notifies the owning agent is false on
the code: (i) a forced `dispose` is a terminal transition (done becomes
true) that performs no write and no indicator event at all; (ii) on the
external-stop path `handleStopGenerating` sets the done flag before
calling `dispose`, so `dispose` early-returns and the stop listener is
never unregistered and the owner is never notified to drop the handler. -/
theorem terminal_cleanup_cex :
    ((GRH.dispose (GRH.initHandler 3)).1.is_done = true
     ∧ (GRH.dispose (GRH.initHandler 3)).2 = [])
  ∧ ((GRH.handleStopGenerating 0 3
        { msgId := 3, message_text := "partial", is_done := false,
          last_update_time := 0, listenerOn := true, onDisposeCalled := false }).1.is_done
        = true
     ∧ (GRH.handleStopGenerating 0 3
        { msgId := 3, message_text := "partial", is_done := false,
          last_update_time := 0, listenerOn := true, onDisposeCalled := false }).1.listenerOn
        = true
     ∧ (GRH.handleStopGenerating 0 3
        { msgId := 3, message_text := "partial", is_done := false,
          last_update_time := 0, listenerOn := true,
          onDisposeCalled := false }).1.onDisposeCalled
        = false) := by
  decide

/-- C8 (amended): terminal cleanup is per-path.  On normal stream
exhaustion and on upstream error the streamer performs its finalization
write(s) plus one indicator event and then unregisters the stop listener
and notifies the owner; on an external stop it performs the accumulated
write (skipped when empty) plus the indicator-clear event but never
unregisters its listener nor notifies the owner (dispose, called after the
done flag is already set, is and remains a no-op); on a forced dispose it
performs no channel operation at all but does unregister and notify. -/
theorem terminal_cleanup_per_path (msgId tEnd now : Nat) (desc : String)
    (frags : List (Nat × String)) (s : GRH.HandlerState) :
    ((GRH.run frags (GRH.StreamEnd.normal tEnd) (GRH.initHandler msgId)).2.2
       = (GRH.runLoop frags (GRH.initHandler msgId)).2
         ++ [ChanOp.updateMessage tEnd msgId (concatTexts frags),
             ChanOp.indicatorClear msgId]
     ∧ (GRH.run frags (GRH.StreamEnd.normal tEnd)
          (GRH.initHandler msgId)).2.1.listenerOn = false
     ∧ (GRH.run frags (GRH.StreamEnd.normal tEnd)
          (GRH.initHandler msgId)).2.1.onDisposeCalled = true)
  ∧ ((GRH.run frags (GRH.StreamEnd.error tEnd desc) (GRH.initHandler msgId)).2.2
       = (GRH.runLoop frags (GRH.initHandler msgId)).2
         ++ [ChanOp.indicatorUpdate msgId "AI_STATE_ERROR",
             ChanOp.updateMessage tEnd msgId
               (if desc = "" then "Error generating the message" else desc)]
     ∧ (GRH.run frags (GRH.StreamEnd.error tEnd desc)
          (GRH.initHandler msgId)).2.1.listenerOn = false
     ∧ (GRH.run frags (GRH.StreamEnd.error tEnd desc)
          (GRH.initHandler msgId)).2.1.onDisposeCalled = true)
  ∧ (s.is_done = false →
       (GRH.handleStopGenerating now s.msgId s).2
         = (if s.message_text != "" then
             [ChanOp.updateMessage now s.msgId s.message_text] else [])
           ++ [ChanOp.indicatorClear s.msgId]
     ∧ (GRH.handleStopGenerating now s.msgId s).1.listenerOn = s.listenerOn
     ∧ (GRH.handleStopGenerating now s.msgId s).1.onDisposeCalled = s.onDisposeCalled
     ∧ GRH.dispose (GRH.handleStopGenerating now s.msgId s).1
         = ((GRH.handleStopGenerating now s.msgId s).1, []))
  ∧ (s.is_done = false →
       GRH.dispose s
         = ({ s with is_done := true, listenerOn := false, onDisposeCalled := true },
            [])) := by
  obtain ⟨_, _, _, _, hn5, hn6, hn7⟩ := GRH.run_normal_init msgId tEnd frags
  obtain ⟨_, _, _, _, he5, he6, he7⟩ := GRH.run_error_init msgId tEnd desc frags
  refine ⟨⟨hn7, hn5, hn6⟩, ⟨he7, he5, he6⟩, ?_, GRH.dispose_not_done s⟩
  intro h
  have hm := GRH.stop_match now s h
  rw [hm]
  exact ⟨rfl, rfl, rfl, GRH.dispose_done _ rfl⟩

/-- Witness for C8 (amended) at a concrete state: a matching stop on a
live streamer leaves the listener registered and the owner un-notified,
and a later dispose is a no-op; a forced dispose on a live streamer makes
no writes and performs the cleanup. -/
theorem terminal_cleanup_per_path_witness :
    (GRH.handleStopGenerating 4 6
        { msgId := 6, message_text := "xy", is_done := false,
          last_update_time := 0, listenerOn := true, onDisposeCalled := false }).2
      = [ChanOp.updateMessage 4 6 "xy", ChanOp.indicatorClear 6]
  ∧ (GRH.handleStopGenerating 4 6
        { msgId := 6, message_text := "xy", is_done := false,
          last_update_time := 0, listenerOn := true, onDisposeCalled := false }).1.listenerOn
      = true
  ∧ GRH.dispose
        { msgId := 6, message_text := "xy", is_done := false,
          last_update_time := 0, listenerOn := true, onDisposeCalled := false }
      = ({ msgId := 6, message_text := "xy", is_done := true,
           last_update_time := 0, listenerOn := false, onDisposeCalled := true }, []) := by
  have h := (terminal_cleanup_per_path 6 0 4 "" []
    { msgId := 6, message_text := "xy", is_done := false,
      last_update_time := 0, listenerOn := true, onDisposeCalled := false })
  refine ⟨(h.2.2.1 rfl).1.trans (by decide), (h.2.2.1 rfl).2.1.trans (by decide),
          (h.2.2.2 rfl).trans (by decide)⟩

/-! ### Claim theorem about the retry policy -/

/-- C6: an upstream error is classified as rate-limit exactly when its
description contains one of the signatures "429", "quota", "Too Many
Requests"; a first failure that is not rate-limit-classified propagates
immediately after a single invocation, with no backoff; when the first `j`
attempts (`j ≤ 3`) fail rate-limit-classified and attempt `j` succeeds,
the loop performs `j + 1` invocations with backoff delays
`2 ^ (attempt + 1)` seconds (2 s, 4 s, 8 s, in ms) before the success; and
when all four attempts fail rate-limit-classified the loop gives up after
4 invocations and the three delays, propagating the last error. -/
theorem retry_rate_limit_policy :
    (∀ msg, isRateLimit msg
       = (containsSub msg "429" || containsSub msg "quota"
          || containsSub msg "Too Many Requests"))
  ∧ (∀ (call : Nat → Except String Unit) (msg : String),
       call 0 = Except.error msg → isRateLimit msg = false →
       Retry.retryCall call = (Except.error msg, [], 1))
  ∧ (∀ (call : Nat → Except String Unit) (j : Nat), j ≤ 3 →
       (∀ k, k < j → ∃ m, call k = Except.error m ∧ isRateLimit m = true) →
       call j = Except.ok () →
       Retry.retryCall call = (Except.ok (), Retry.delaysBefore j, j + 1))
  ∧ (∀ (call : Nat → Except String Unit),
       (∀ k, k ≤ 3 → ∃ m, call k = Except.error m ∧ isRateLimit m = true) →
       ∃ m, call 3 = Except.error m
         ∧ Retry.retryCall call = (Except.error m, Retry.delaysBefore 3, 4)) := by
  obtain ⟨d0, d1, d2, d3⟩ := Retry.delaysBefore_vals
  refine ⟨fun msg => rfl, ?_, ?_, ?_⟩
  · intro call msg h0 hrl
    simp [Retry.retryCall, Retry.retryAux, h0, hrl]
  · intro call j hj hpre hok
    interval_cases j
    · simp [Retry.retryCall, Retry.retryAux, hok, d0]
    · obtain ⟨m0, he0, hr0⟩ := hpre 0 (by omega)
      simp [Retry.retryCall, Retry.retryAux, he0, hr0, hok, d1]
    · obtain ⟨m0, he0, hr0⟩ := hpre 0 (by omega)
      obtain ⟨m1, he1, hr1⟩ := hpre 1 (by omega)
      simp [Retry.retryCall, Retry.retryAux, he0, hr0, he1, hr1, hok, d2]
    · obtain ⟨m0, he0, hr0⟩ := hpre 0 (by omega)
      obtain ⟨m1, he1, hr1⟩ := hpre 1 (by omega)
      obtain ⟨m2, he2, hr2⟩ := hpre 2 (by omega)
      simp [Retry.retryCall, Retry.retryAux, he0, hr0, he1, hr1, he2, hr2, hok, d3]
  · intro call hpre
    obtain ⟨m0, he0, hr0⟩ := hpre 0 (by omega)
    obtain ⟨m1, he1, hr1⟩ := hpre 1 (by omega)
    obtain ⟨m2, he2, hr2⟩ := hpre 2 (by omega)
    obtain ⟨m3, he3, hr3⟩ := hpre 3 (by omega)
    refine ⟨m3, he3, ?_⟩
    simp [Retry.retryCall, Retry.retryAux, he0, hr0, he1, hr1, he2, hr2, he3, hr3, d3]

/-- Witness for C6: a stub failing with a 429 error on the first two
attempts and succeeding on the third makes 3 invocations with delays
2 s then 4 s. -/
theorem retry_rate_limit_policy_witness :
    Retry.retryCall (fun k => if k < 2 then Except.error "got 429 back" else Except.ok ())
      = (Except.ok (), [2000, 4000], 3) := by
  have h := retry_rate_limit_policy.2.2.1
    (fun k => if k < 2 then Except.error "got 429 back" else Except.ok ())
    2 (by omega)
    (fun k hk => ⟨"got 429 back", by interval_cases k <;> simp, by decide⟩)
    (by simp)
  rw [h, Retry.delaysBefore_vals.2.2.1]

/-! ### Helper lemmas for the queuing-agent invariant -/

theorem role_user_beq : (Role.user == Role.user) = true := rfl

theorem role_model_beq : (Role.model == Role.model) = true := rfl

theorem role_mu_beq : (Role.model == Role.user) = false := rfl

theorem role_um_beq : (Role.user == Role.model) = false := rfl

theorem userTexts_append_user (h : List Turn) (t : String) :
    userTexts (h ++ [{ role := Role.user, text := t }]) = userTexts h ++ [t] := by
  simp [userTexts, List.filter_append, role_user_beq]

theorem userTexts_append_model (h : List Turn) (t : String) :
    userTexts (h ++ [{ role := Role.model, text := t }]) = userTexts h := by
  simp [userTexts, List.filter_append, role_mu_beq]

theorem modelCount_append_user (h : List Turn) (t : String) :
    modelCount (h ++ [{ role := Role.user, text := t }]) = modelCount h := by
  simp [modelCount, List.filter_append, role_um_beq]

theorem modelCount_append_model (h : List Turn) (t : String) :
    modelCount (h ++ [{ role := Role.model, text := t }]) = modelCount h + 1 := by
  simp [modelCount, List.filter_append, role_model_beq]

theorem findH_of_mem (hs : List HRec)
    (hpw : hs.Pairwise (fun a b => a.hid ≠ b.hid)) (r : HRec) (hr : r ∈ hs) :
    findH r.hid hs = some r.h := by
  induction hs with
  | nil => cases hr
  | cons a tl ih =>
    rcases List.mem_cons.mp hr with h | h
    · subst h
      simp [findH, List.find?]
    · have hne : a.hid ≠ r.hid := (List.pairwise_cons.mp hpw).1 r h
      have hbe : (a.hid == r.hid) = false := by simpa using hne
      have := ih (List.pairwise_cons.mp hpw).2 h
      simpa [findH, List.find?, hbe] using this

theorem GRH.stop_state (now evMsgId : Nat) (s : GRH.HandlerState) :
    (GRH.handleStopGenerating now evMsgId s).1 = s
  ∨ (GRH.handleStopGenerating now evMsgId s).1 = { s with is_done := true } := by
  unfold GRH.handleStopGenerating
  split
  · left; rfl
  · right; simp [GRH.dispose]

theorem stopHRec_hid (e n : Nat) (r : HRec) : (stopHRec e n r).1.hid = r.hid := by
  unfold stopHRec
  split <;> rfl

theorem stopHRec_live (e n : Nat) (r : HRec) :
    live (stopHRec e n r).1 = true → live r = true := by
  unfold stopHRec
  split
  · intro h
    rcases GRH.stop_state n e r.h with hs | hs
    · simpa [live, hs] using h
    · simp [live, hs] at h
  · exact fun h => h

theorem QA.inv_carry2 (s s' : QA.AgentState) (inv : QA.Inv s)
    (hh1 : ∀ r' ∈ s'.handlers,
       ∃ r ∈ s.handlers, r'.hid = r.hid ∧ (live r' = true → live r = true))
    (hh2 : s'.handlers.Pairwise (fun a b => a.hid ≠ b.hid))
    (hq : s'.messageQueue = s.messageQueue)
    (hhist : s'.chatHistory = s.chatHistory)
    (hct : s'.callsTrace = s.callsTrace)
    (hac : s'.apiCallCount = s.apiCallCount)
    (hnh : s'.nextHid = s.nextHid)
    (hproc : s'.isProcessing = s.isProcessing)
    (hsome : s'.phase.isSome = s.phase.isSome)
    (hpend : QA.pendingTexts s'.phase = QA.pendingTexts s.phase)
    (hdebt : QA.episodeDebt s'.phase = QA.episodeDebt s.phase)
    (hcur : QA.currentHid s'.phase = QA.currentHid s.phase)
    (hnone : s'.phase = none → s.phase = none) :
    QA.Inv s' := by
  refine ⟨?_, ?_, ?_, ?_, ?_, ?_, ?_, ?_, ?_⟩
  · rw [hproc, hsome]
    exact inv.procPhase
  · intro h
    rw [hq]
    exact inv.queueIdle (hnone h)
  · intro r' hr'
    obtain ⟨r, hr, hhid, _⟩ := hh1 r' hr'
    rw [hhid, hnh]
    exact inv.hidBound r hr
  · exact hh2
  · intro r' hr' hlv
    obtain ⟨r, hr, hhid, hlive⟩ := hh1 r' hr'
    rw [hcur, hhid]
    exact inv.liveCur r hr (hlive hlv)
  · rw [hhist, hct, hpend]
    exact inv.callsHist
  · rw [hac, hct]
    exact inv.callsCount
  · rw [hhist, hdebt, hac]
    exact inv.modelDebt
  · rw [hhist]
    exact inv.modelNonempty

theorem QA.inv_carry (s s' : QA.AgentState) (inv : QA.Inv s)
    (hh : s'.handlers = s.handlers)
    (hq : s'.messageQueue = s.messageQueue)
    (hhist : s'.chatHistory = s.chatHistory)
    (hct : s'.callsTrace = s.callsTrace)
    (hac : s'.apiCallCount = s.apiCallCount)
    (hnh : s'.nextHid = s.nextHid)
    (hproc : s'.isProcessing = s.isProcessing)
    (hsome : s'.phase.isSome = s.phase.isSome)
    (hpend : QA.pendingTexts s'.phase = QA.pendingTexts s.phase)
    (hdebt : QA.episodeDebt s'.phase = QA.episodeDebt s.phase)
    (hcur : QA.currentHid s'.phase = QA.currentHid s.phase)
    (hnone : s'.phase = none → s.phase = none) :
    QA.Inv s' :=
  QA.inv_carry2 s s' inv
    (fun r' hr' => ⟨r', hh ▸ hr', rfl, fun h => h⟩)
    (hh ▸ inv.hidDistinct)
    hq hhist hct hac hnh hproc hsome hpend hdebt hcur hnone

theorem QA.no_live_of_cur_none (s : QA.AgentState) (inv : QA.Inv s)
    (h : QA.currentHid s.phase = none) :
    ∀ r ∈ s.handlers, live r = false := by
  intro r hr
  cases hlv : live r with
  | false => rfl
  | true =>
    exfalso
    have := inv.liveCur r hr hlv
    rw [h] at this
    cases this

theorem QA.all_done_current (s : QA.AgentState) (inv : QA.Inv s) (hid : Nat)
    (h : GRH.HandlerState)
    (hcur : QA.currentHid s.phase = some hid)
    (hfind : findH hid s.handlers = some h) (hdone : h.is_done = true) :
    ∀ r ∈ s.handlers, live r = false := by
  intro r hr
  cases hlv : live r with
  | false => rfl
  | true =>
    exfalso
    have hc := inv.liveCur r hr hlv
    rw [hcur] at hc
    have hhid : r.hid = hid := (Option.some.inj hc).symm
    have hu := findH_of_mem s.handlers inv.hidDistinct r hr
    rw [hhid, hfind] at hu
    have hrh : r.h = h := (Option.some.inj hu).symm
    have : r.h.is_done = true := hrh ▸ hdone
    simp [live, this] at hlv

theorem QA.all_done_removed (s : QA.AgentState) (inv : QA.Inv s) (hid : Nat)
    (hcur : QA.currentHid s.phase = some hid) :
    ∀ r ∈ removeH hid s.handlers, live r = false := by
  intro r hr
  have hmem := List.mem_filter.mp hr
  cases hlv : live r with
  | false => rfl
  | true =>
    exfalso
    have hc := inv.liveCur r hmem.1 hlv
    rw [hcur] at hc
    have hhid : r.hid = hid := (Option.some.inj hc).symm
    have : (r.hid != hid) = true := hmem.2
    simp [hhid] at this

theorem QA.setH_map_facts (hs : List HRec)
    (hpw : hs.Pairwise (fun a b => a.hid ≠ b.hid))
    (hid : Nat) (f : GRH.HandlerState → GRH.HandlerState)
    (hfd : ∀ h, findH hid hs = some h → (f h).is_done = h.is_done) :
    (∀ r' ∈ setH hid f hs,
       ∃ r ∈ hs, r'.hid = r.hid ∧ (live r' = true → live r = true))
  ∧ (setH hid f hs).Pairwise (fun a b => a.hid ≠ b.hid) := by
  constructor
  · intro r' hr'
    obtain ⟨r, hr, hg⟩ := List.mem_map.mp hr'
    by_cases hbe : (r.hid == hid) = true
    · have hhid : r.hid = hid := by simpa using hbe
      have hu := findH_of_mem hs hpw r hr
      rw [hhid] at hu
      have hfdr := hfd r.h hu
      refine ⟨r, hr, ?_, ?_⟩
      · rw [← hg]
        simp [hbe]
      · intro hlv
        rw [← hg] at hlv
        simp only [hbe, if_true] at hlv
        simp only [live] at hlv ⊢
        simpa [hfdr] using hlv
    · have hbe' : (r.hid == hid) = false := by simpa using hbe
      have hrr : r' = r := by rw [← hg]; simp [hbe']
      exact ⟨r, hr, by rw [hrr], by rw [hrr]; exact fun h => h⟩
  · unfold setH
    refine List.Pairwise.map _ ?_ hpw
    intro a b hne
    by_cases ha : (a.hid == hid) = true <;> by_cases hb : (b.hid == hid) = true <;>
      simpa [ha, hb] using hne

theorem QA.startEpisode_inv (s : QA.AgentState) (m : Msg) (now : Nat)
    (inv : QA.Inv s) (hidle : s.phase = none) :
    QA.Inv (QA.startEpisode m now s) := by
  have hdone := QA.no_live_of_cur_none s inv (by simp [hidle, QA.currentHid])
  unfold QA.startEpisode
  refine ⟨?_, ?_, ?_, ?_, ?_, ?_, ?_, ?_, ?_⟩
  · simp
  · intro h
    simp at h
  · exact inv.hidBound
  · exact inv.hidDistinct
  · intro r hr hlv
    rw [hdone r hr] at hlv
    cases hlv
  · show userTexts (s.chatHistory ++ [{ role := Role.user, text := m.text }]) = _
    rw [userTexts_append_user]
    have hc := inv.callsHist
    rw [hidle] at hc
    simp only [QA.pendingTexts, List.append_nil] at hc
    simp [QA.pendingTexts, hc]
  · exact inv.callsCount
  · show modelCount (s.chatHistory ++ [{ role := Role.user, text := m.text }]) + _ ≤ _
    rw [modelCount_append_user]
    have hm := inv.modelDebt
    rw [hidle] at hm
    simpa [QA.episodeDebt] using hm
  · intro t ht hrole
    rcases List.mem_append.mp ht with h | h
    · exact inv.modelNonempty t h hrole
    · have : t = { role := Role.user, text := m.text } := by simpa using h
      rw [this] at hrole
      cases hrole

theorem QA.finishEpisode_inv (s : QA.AgentState) (fullText : String) (now : Nat)
    (hdone : ∀ r ∈ s.handlers, live r = false)
    (hhb : ∀ r ∈ s.handlers, r.hid < s.nextHid)
    (hhd : s.handlers.Pairwise (fun a b => a.hid ≠ b.hid))
    (hch : userTexts s.chatHistory = s.callsTrace)
    (hcc : s.apiCallCount = s.callsTrace.length)
    (hmd : modelCount s.chatHistory + 1 ≤ s.apiCallCount)
    (hmn : ∀ t ∈ s.chatHistory, t.role = Role.model → t.text ≠ "") :
    QA.Inv (QA.finishEpisode fullText now s) := by
  have hone : ∀ h1 : List Turn,
      userTexts h1 = s.callsTrace →
      modelCount h1 ≤ s.apiCallCount →
      (∀ t ∈ h1, t.role = Role.model → t.text ≠ "") →
      ∀ st : QA.AgentState,
        st.chatHistory = h1 → st.handlers = s.handlers →
        st.callsTrace = s.callsTrace → st.apiCallCount = s.apiCallCount →
        st.nextHid = s.nextHid → st.isProcessing = false → st.phase = none →
        st.messageQueue = [] → QA.Inv st := by
    intro h1 hu hm hn st e1 e2 e3 e4 e5 e6 e7 e8
    refine ⟨?_, ?_, ?_, ?_, ?_, ?_, ?_, ?_, ?_⟩
    · rw [e6, e7]
      rfl
    · intro _
      exact e8
    · rw [e2, e5]
      exact hhb
    · rw [e2]
      exact hhd
    · intro r hr hlv
      rw [e2] at hr
      rw [hdone r hr] at hlv
      cases hlv
    · rw [e1, e3, e7, hu]
      simp [QA.pendingTexts]
    · rw [e4, e3]
      exact hcc
    · rw [e1, e7, e4]
      simpa [QA.episodeDebt] using hm
    · rw [e1]
      exact hn
  have htwo : ∀ (h1 : List Turn) (m : Msg) (rest : List Msg),
      userTexts h1 = s.callsTrace →
      modelCount h1 ≤ s.apiCallCount →
      (∀ t ∈ h1, t.role = Role.model → t.text ≠ "") →
      ∀ st : QA.AgentState,
        st.chatHistory = h1 ++ [{ role := Role.user, text := m.text }] →
        st.handlers = s.handlers →
        st.callsTrace = s.callsTrace → st.apiCallCount = s.apiCallCount →
        st.nextHid = s.nextHid → st.isProcessing = true →
        st.phase = some (QA.Phase.waitSendMessage m.text) →
        st.messageQueue = rest → QA.Inv st := by
    intro h1 m rest hu hm hn st e1 e2 e3 e4 e5 e6 e7 e8
    refine ⟨?_, ?_, ?_, ?_, ?_, ?_, ?_, ?_, ?_⟩
    · rw [e6, e7]
      rfl
    · intro h
      rw [e7] at h
      cases h
    · rw [e2, e5]
      exact hhb
    · rw [e2]
      exact hhd
    · intro r hr hlv
      rw [e2] at hr
      rw [hdone r hr] at hlv
      cases hlv
    · rw [e1, e3, e7, userTexts_append_user, hu]
      simp [QA.pendingTexts]
    · rw [e4, e3]
      exact hcc
    · rw [e1, e7, e4, modelCount_append_user]
      simpa [QA.episodeDebt] using hm
    · intro t ht hrole
      rw [e1] at ht
      rcases List.mem_append.mp ht with h | h
      · exact hn t h hrole
      · have : t = { role := Role.user, text := m.text } := by simpa using h
        rw [this] at hrole
        cases hrole
  by_cases hft : (fullText != "") = true
  · have hh1u : userTexts (s.chatHistory ++ [{ role := Role.model, text := fullText }])
        = s.callsTrace := by rw [userTexts_append_model, hch]
    have hh1m : modelCount (s.chatHistory ++ [{ role := Role.model, text := fullText }])
        ≤ s.apiCallCount := by rw [modelCount_append_model]; omega
    have hh1n : ∀ t ∈ s.chatHistory ++ [{ role := Role.model, text := fullText }],
        t.role = Role.model → t.text ≠ "" := by
      intro t ht hrole
      rcases List.mem_append.mp ht with h | h
      · exact hmn t h hrole
      · have : t = { role := Role.model, text := fullText } := by simpa using h
        rw [this]
        simpa using hft
    rcases hq : s.messageQueue with _ | ⟨m, rest⟩
    · have hstep : QA.finishEpisode fullText now s
          = { s with chatHistory := s.chatHistory
                       ++ [{ role := Role.model, text := fullText }],
                     isProcessing := false, phase := none } := by
        simp [QA.finishEpisode, hft, hq]
      rw [hstep]
      exact hone _ hh1u hh1m hh1n _ rfl rfl rfl rfl rfl rfl rfl (by simp [hq])
    · have hstep : QA.finishEpisode fullText now s
          = { s with chatHistory := (s.chatHistory
                       ++ [{ role := Role.model, text := fullText }])
                       ++ [{ role := Role.user, text := m.text }],
                     messageQueue := rest,
                     isProcessing := true,
                     lastInteractionTs := now,
                     phase := some (QA.Phase.waitSendMessage m.text) } := by
        simp [QA.finishEpisode, QA.startEpisode, hft, hq]
      rw [hstep]
      exact htwo _ m rest hh1u hh1m hh1n _ rfl rfl rfl rfl rfl rfl rfl rfl
  · have hft' : (fullText != "") = false := by simpa using hft
    have hsm : modelCount s.chatHistory ≤ s.apiCallCount := by omega
    rcases hq : s.messageQueue with _ | ⟨m, rest⟩
    · have hstep : QA.finishEpisode fullText now s
          = { s with isProcessing := false, phase := none } := by
        simp [QA.finishEpisode, hft', hq]
      rw [hstep]
      exact hone _ hch hsm hmn _ rfl rfl rfl rfl rfl rfl rfl (by simp [hq])
    · have hstep : QA.finishEpisode fullText now s
          = { s with chatHistory := s.chatHistory
                       ++ [{ role := Role.user, text := m.text }],
                     messageQueue := rest,
                     isProcessing := true,
                     lastInteractionTs := now,
                     phase := some (QA.Phase.waitSendMessage m.text) } := by
        simp [QA.finishEpisode, QA.startEpisode, hft', hq]
      rw [hstep]
      exact htwo _ m rest hch hsm hmn _ rfl rfl rfl rfl rfl rfl rfl rfl

theorem QA.stopBroadcast_handlers (evMsgId now : Nat) (s : QA.AgentState) :
    (QA.stopBroadcast evMsgId now s).handlers
      = s.handlers.map (fun r => (stopHRec evMsgId now r).1) := by
  simp [QA.stopBroadcast, List.map_map]

theorem QA.stop_inv (s : QA.AgentState) (evMsgId now : Nat) (inv : QA.Inv s) :
    QA.Inv (QA.stopBroadcast evMsgId now s) := by
  refine QA.inv_carry2 s _ inv ?_ ?_ rfl rfl rfl rfl rfl rfl rfl rfl rfl rfl
    (fun h => h)
  · intro r' hr'
    rw [QA.stopBroadcast_handlers] at hr'
    obtain ⟨r, hr, hg⟩ := List.mem_map.mp hr'
    refine ⟨r, hr, ?_, ?_⟩
    · rw [← hg, stopHRec_hid]
    · intro hlv
      rw [← hg] at hlv
      exact stopHRec_live evMsgId now r hlv
  · rw [QA.stopBroadcast_handlers]
    refine List.Pairwise.map _ ?_ inv.hidDistinct
    intro a b hne
    rw [stopHRec_hid, stopHRec_hid]
    exact hne

theorem QA.queue_push_inv (s : QA.AgentState) (m : Msg) (inv : QA.Inv s)
    (hp : s.isProcessing = true) :
    QA.Inv { s with messageQueue := s.messageQueue ++ [m] } := by
  refine ⟨inv.procPhase, ?_, inv.hidBound, inv.hidDistinct, inv.liveCur,
          inv.callsHist, inv.callsCount, inv.modelDebt, inv.modelNonempty⟩
  intro h
  have hpp := inv.procPhase
  rw [h, hp] at hpp
  cases hpp

theorem QA.phase_none_of_not_processing (s : QA.AgentState) (inv : QA.Inv s)
    (hp : s.isProcessing = false) : s.phase = none := by
  have h := inv.procPhase
  rw [hp] at h
  cases hph : s.phase with
  | none => rfl
  | some ph =>
    rw [hph] at h
    simp at h

theorem QA.finish_pre (s : QA.AgentState) (inv : QA.Inv s)
    (hpend : QA.pendingTexts s.phase = [])
    (hdebt : QA.episodeDebt s.phase = 1) :
    userTexts s.chatHistory = s.callsTrace
  ∧ modelCount s.chatHistory + 1 ≤ s.apiCallCount := by
  constructor
  · have h := inv.callsHist
    rw [hpend, List.append_nil] at h
    exact h
  · have h := inv.modelDebt
    rw [hdebt] at h
    exact h

theorem QA.finishEpisode_inv_done (s : QA.AgentState) (inv : QA.Inv s)
    (fullText : String) (now : Nat)
    (hdone : ∀ r ∈ s.handlers, live r = false)
    (hpend : QA.pendingTexts s.phase = [])
    (hdebt : QA.episodeDebt s.phase = 1) :
    QA.Inv (QA.finishEpisode fullText now s) := by
  obtain ⟨hch, hmd⟩ := QA.finish_pre s inv hpend hdebt
  exact QA.finishEpisode_inv s fullText now hdone inv.hidBound inv.hidDistinct hch
    inv.callsCount hmd inv.modelNonempty

theorem QA.finishEpisode_inv_removed (s : QA.AgentState) (inv : QA.Inv s)
    (hid : Nat) (fullText : String) (now : Nat)
    (hcur : QA.currentHid s.phase = some hid)
    (hpend : QA.pendingTexts s.phase = [])
    (hdebt : QA.episodeDebt s.phase = 1) :
    QA.Inv (QA.finishEpisode fullText now
      { s with handlers := removeH hid s.handlers }) := by
  obtain ⟨hch, hmd⟩ := QA.finish_pre s inv hpend hdebt
  refine QA.finishEpisode_inv _ fullText now ?_ ?_ ?_ hch inv.callsCount hmd
    inv.modelNonempty
  · exact QA.all_done_removed s inv hid hcur
  · intro r hr
    exact inv.hidBound r (List.mem_filter.mp hr).1
  · exact List.Pairwise.sublist (List.filter_sublist _) inv.hidDistinct

theorem QA.inv_step (s : QA.AgentState) (ev : QA.AEv) (inv : QA.Inv s) :
    QA.Inv (QA.step s ev) := by
  cases ev with
  | inbound m now =>
    by_cases ha : accepts m = true
    · by_cases hp : s.isProcessing = true
      · have hstep : QA.step s (QA.AEv.inbound m now)
            = { s with messageQueue := s.messageQueue ++ [m] } := by
          simp [QA.step, ha, hp]
        rw [hstep]
        exact QA.queue_push_inv s m inv hp
      · have hp' : s.isProcessing = false := by simpa using hp
        have hstep : QA.step s (QA.AEv.inbound m now) = QA.startEpisode m now s := by
          simp [QA.step, ha, hp']
        rw [hstep]
        exact QA.startEpisode_inv s m now inv (QA.phase_none_of_not_processing s inv hp')
    · have ha' : accepts m = false := by simpa using ha
      have hstep : QA.step s (QA.AEv.inbound m now) = s := by
        simp [QA.step, ha']
      rw [hstep]
      exact inv
  | stop evMsgId now =>
    have hstep : QA.step s (QA.AEv.stop evMsgId now)
        = QA.stopBroadcast evMsgId now s := by
      simp [QA.step]
    rw [hstep]
    exact QA.stop_inv s evMsgId now inv
  | sentMessage msgId =>
    cases hph : s.phase with
    | none =>
      have hstep : QA.step s (QA.AEv.sentMessage msgId) = s := by simp [QA.step, hph]
      rw [hstep]; exact inv
    | some ph =>
      cases ph
      case waitSendMessage mtext =>
        have hstep : QA.step s (QA.AEv.sentMessage msgId)
            = { s with phase := some (QA.Phase.waitThinking mtext msgId),
                       ops := s.ops
                         ++ [ChanOp.indicatorUpdate msgId "AI_STATE_THINKING"] } := by
          simp [QA.step, hph]
        rw [hstep]
        exact QA.inv_carry s _ inv rfl rfl rfl rfl rfl rfl rfl (by simp [hph])
          (by simp [hph, QA.pendingTexts]) (by simp [hph, QA.episodeDebt])
          (by simp [hph, QA.currentHid]) (by simp)
      all_goals {
        have hstep : QA.step s (QA.AEv.sentMessage msgId) = s := by
          simp [QA.step, hph]
        rw [hstep]
        exact inv }
  | sentEvent now =>
    cases hph : s.phase with
    | none =>
      have hstep : QA.step s (QA.AEv.sentEvent now) = s := by simp [QA.step, hph]
      rw [hstep]; exact inv
    | some ph =>
      cases ph
      case waitThinking mtext msgId =>
        have hstep : QA.step s (QA.AEv.sentEvent now)
            = if now - s.lastApiCallTs < 4000 && s.lastApiCallTs > 0 then
                { s with phase := some (QA.Phase.waitSpacing mtext msgId) }
              else
                { s with phase := some (QA.Phase.waitGenerating mtext msgId),
                         ops := s.ops
                           ++ [ChanOp.indicatorUpdate msgId "AI_STATE_GENERATING"] } := by
          simp [QA.step, hph]
        rw [hstep]
        split
        · exact QA.inv_carry s _ inv rfl rfl rfl rfl rfl rfl rfl (by simp [hph])
            (by simp [hph, QA.pendingTexts]) (by simp [hph, QA.episodeDebt])
            (by simp [hph, QA.currentHid]) (by simp)
        · exact QA.inv_carry s _ inv rfl rfl rfl rfl rfl rfl rfl (by simp [hph])
            (by simp [hph, QA.pendingTexts]) (by simp [hph, QA.episodeDebt])
            (by simp [hph, QA.currentHid]) (by simp)
      case waitGenerating mtext msgId =>
        have hstep : QA.step s (QA.AEv.sentEvent now)
            = { s with apiCallCount := s.apiCallCount + 1,
                       lastApiCallTs := now,
                       callsTrace := s.callsTrace ++ [mtext],
                       invocations := s.invocations + 1,
                       phase := some (QA.Phase.waitAttempt msgId 0) } := by
          simp [QA.step, hph]
        rw [hstep]
        refine ⟨?_, ?_, inv.hidBound, inv.hidDistinct, ?_, ?_, ?_, ?_, inv.modelNonempty⟩
        · have h := inv.procPhase
          rw [hph] at h
          simpa using h
        · intro h
          simp at h
        · intro r hr hlv
          have h := inv.liveCur r hr hlv
          rw [hph] at h
          simp [QA.currentHid] at h
        · have h := inv.callsHist
          rw [hph] at h
          simp only [QA.pendingTexts] at h ⊢
          simpa using h
        · have h := inv.callsCount
          simp [h]
        · have h := inv.modelDebt
          rw [hph] at h
          simp only [QA.episodeDebt] at h ⊢
          omega
      case waitClear hid =>
        cases hf : findH hid s.handlers with
        | none =>
          have hstep : QA.step s (QA.AEv.sentEvent now) = s := by
            simp [QA.step, hph, hf]
          rw [hstep]; exact inv
        | some h =>
          by_cases hd : h.is_done = true
          · have hstep : QA.step s (QA.AEv.sentEvent now)
                = QA.finishEpisode h.message_text now s := by
              simp [QA.step, hph, hf, hd]
            rw [hstep]
            exact QA.finishEpisode_inv_done s inv _ now
              (QA.all_done_current s inv hid h (by simp [hph, QA.currentHid]) hf hd)
              (by simp [hph, QA.pendingTexts]) (by simp [hph, QA.episodeDebt])
          · have hd' : h.is_done = false := by simpa using hd
            have hstep : QA.step s (QA.AEv.sentEvent now)
                = QA.finishEpisode h.message_text now
                    { s with handlers := removeH hid s.handlers } := by
              simp [QA.step, hph, hf, hd']
            rw [hstep]
            exact QA.finishEpisode_inv_removed s inv hid _ now
              (by simp [hph, QA.currentHid]) (by simp [hph, QA.pendingTexts])
              (by simp [hph, QA.episodeDebt])
      case waitErrIndicator hid desc =>
        cases hf : findH hid s.handlers with
        | none =>
          have hstep : QA.step s (QA.AEv.sentEvent now) = s := by
            simp [QA.step, hph, hf]
          rw [hstep]; exact inv
        | some h =>
          have hstep : QA.step s (QA.AEv.sentEvent now)
              = { s with ops := s.ops ++ [ChanOp.updateMessage now h.msgId
                     (if desc = "" then "Error generating the message" else desc)],
                         phase := some (QA.Phase.waitErrWrite hid desc) } := by
            simp [QA.step, hph, hf]
          rw [hstep]
          exact QA.inv_carry s _ inv rfl rfl rfl rfl rfl rfl rfl (by simp [hph])
            (by simp [hph, QA.pendingTexts]) (by simp [hph, QA.episodeDebt])
            (by simp [hph, QA.currentHid]) (by simp)
      case waitCatchIndicator msgId =>
        have hstep : QA.step s (QA.AEv.sentEvent now)
            = { s with ops := s.ops ++ [ChanOp.updateMessage now msgId
                   "Sorry, I encountered an error. Please try again."],
                       phase := some (QA.Phase.waitCatchWrite msgId) } := by
          simp [QA.step, hph]
        rw [hstep]
        exact QA.inv_carry s _ inv rfl rfl rfl rfl rfl rfl rfl (by simp [hph])
          (by simp [hph, QA.pendingTexts]) (by simp [hph, QA.episodeDebt])
          (by simp [hph, QA.currentHid]) (by simp)
      all_goals {
        have hstep : QA.step s (QA.AEv.sentEvent now) = s := by simp [QA.step, hph]
        rw [hstep]
        exact inv }
  | timerDone now =>
    cases hph : s.phase with
    | none =>
      have hstep : QA.step s (QA.AEv.timerDone now) = s := by simp [QA.step, hph]
      rw [hstep]; exact inv
    | some ph =>
      cases ph
      case waitSpacing mtext msgId =>
        have hstep : QA.step s (QA.AEv.timerDone now)
            = { s with phase := some (QA.Phase.waitGenerating mtext msgId),
                       ops := s.ops
                         ++ [ChanOp.indicatorUpdate msgId "AI_STATE_GENERATING"] } := by
          simp [QA.step, hph]
        rw [hstep]
        exact QA.inv_carry s _ inv rfl rfl rfl rfl rfl rfl rfl (by simp [hph])
          (by simp [hph, QA.pendingTexts]) (by simp [hph, QA.episodeDebt])
          (by simp [hph, QA.currentHid]) (by simp)
      case waitRetryDelay msgId attempt =>
        have hstep : QA.step s (QA.AEv.timerDone now)
            = { s with invocations := s.invocations + 1,
                       phase := some (QA.Phase.waitAttempt msgId (attempt + 1)) } := by
          simp [QA.step, hph]
        rw [hstep]
        exact QA.inv_carry s _ inv rfl rfl rfl rfl rfl rfl rfl (by simp [hph])
          (by simp [hph, QA.pendingTexts]) (by simp [hph, QA.episodeDebt])
          (by simp [hph, QA.currentHid]) (by simp)
      all_goals {
        have hstep : QA.step s (QA.AEv.timerDone now) = s := by simp [QA.step, hph]
        rw [hstep]
        exact inv }
  | attemptOk now =>
    cases hph : s.phase with
    | none =>
      have hstep : QA.step s (QA.AEv.attemptOk now) = s := by simp [QA.step, hph]
      rw [hstep]; exact inv
    | some ph =>
      cases ph
      case waitAttempt msgId attempt =>
        have hstep : QA.step s (QA.AEv.attemptOk now)
            = { s with handlers := s.handlers
                         ++ [{ hid := s.nextHid, h := GRH.initHandler msgId }],
                       nextHid := s.nextHid + 1,
                       phase := some (QA.Phase.streaming s.nextHid) } := by
          simp [QA.step, hph]
        rw [hstep]
        have hnolive := QA.no_live_of_cur_none s inv (by simp [hph, QA.currentHid])
        refine ⟨?_, ?_, ?_, ?_, ?_, ?_, inv.callsCount, ?_, inv.modelNonempty⟩
        · have h := inv.procPhase
          rw [hph] at h
          simpa using h
        · intro h
          simp at h
        · intro r hr
          rcases List.mem_append.mp hr with h | h
          · have := inv.hidBound r h
            show r.hid < s.nextHid + 1
            omega
          · have hr' : r = { hid := s.nextHid, h := GRH.initHandler msgId } := by
              simpa using h
            rw [hr']
            show s.nextHid < s.nextHid + 1
            omega
        · rw [List.pairwise_append]
          refine ⟨inv.hidDistinct, by simp, ?_⟩
          intro a ha b hb
          have hb' : b = { hid := s.nextHid, h := GRH.initHandler msgId } := by
            simpa using hb
          rw [hb']
          show a.hid ≠ s.nextHid
          have := inv.hidBound a ha
          omega
        · intro r hr hlv
          rcases List.mem_append.mp hr with h | h
          · rw [hnolive r h] at hlv
            cases hlv
          · have hr' : r = { hid := s.nextHid, h := GRH.initHandler msgId } := by
              simpa using h
            rw [hr']
            simp [QA.currentHid]
        · have h := inv.callsHist
          rw [hph] at h
          simp only [QA.pendingTexts] at h ⊢
          exact h
        · have h := inv.modelDebt
          rw [hph] at h
          simp only [QA.episodeDebt] at h ⊢
          omega
      all_goals {
        have hstep : QA.step s (QA.AEv.attemptOk now) = s := by simp [QA.step, hph]
        rw [hstep]
        exact inv }
  | attemptErr desc now =>
    cases hph : s.phase with
    | none =>
      have hstep : QA.step s (QA.AEv.attemptErr desc now) = s := by simp [QA.step, hph]
      rw [hstep]; exact inv
    | some ph =>
      cases ph
      case waitAttempt msgId attempt =>
        have hstep : QA.step s (QA.AEv.attemptErr desc now)
            = if isRateLimit desc && decide (attempt < 3) then
                { s with phase := some (QA.Phase.waitRetryDelay msgId attempt) }
              else
                { s with phase := some (QA.Phase.waitCatchIndicator msgId),
                         ops := s.ops
                           ++ [ChanOp.indicatorUpdate msgId "AI_STATE_ERROR"] } := by
          simp [QA.step, hph]
        rw [hstep]
        split
        · exact QA.inv_carry s _ inv rfl rfl rfl rfl rfl rfl rfl (by simp [hph])
            (by simp [hph, QA.pendingTexts]) (by simp [hph, QA.episodeDebt])
            (by simp [hph, QA.currentHid]) (by simp)
        · exact QA.inv_carry s _ inv rfl rfl rfl rfl rfl rfl rfl (by simp [hph])
            (by simp [hph, QA.pendingTexts]) (by simp [hph, QA.episodeDebt])
            (by simp [hph, QA.currentHid]) (by simp)
      all_goals {
        have hstep : QA.step s (QA.AEv.attemptErr desc now) = s := by
          simp [QA.step, hph]
        rw [hstep]
        exact inv }
  | chunk now text =>
    cases hph : s.phase with
    | none =>
      have hstep : QA.step s (QA.AEv.chunk now text) = s := by simp [QA.step, hph]
      rw [hstep]; exact inv
    | some ph =>
      cases ph
      case streaming hid =>
        cases hf : findH hid s.handlers with
        | none =>
          have hstep : QA.step s (QA.AEv.chunk now text) = s := by
            simp [QA.step, hph, hf]
          rw [hstep]; exact inv
        | some h =>
          by_cases hd : h.is_done = true
          · have hstep : QA.step s (QA.AEv.chunk now text)
                = QA.finishEpisode h.message_text now s := by
              simp [QA.step, hph, hf, hd]
            rw [hstep]
            exact QA.finishEpisode_inv_done s inv _ now
              (QA.all_done_current s inv hid h (by simp [hph, QA.currentHid]) hf hd)
              (by simp [hph, QA.pendingTexts]) (by simp [hph, QA.episodeDebt])
          · have hd' : h.is_done = false := by simpa using hd
            by_cases ht : text = ""
            · have hstep : QA.step s (QA.AEv.chunk now text) = s := by
                simp [QA.step, hph, hf, hd', ht]
              rw [hstep]; exact inv
            · have hfd : ∀ h', findH hid s.handlers = some h' →
                  ((fun _ => { h with message_text := h.message_text ++ text }) h').is_done
                    = h'.is_done := by
                intro h' hfind'
                rw [hf] at hfind'
                cases Option.some.inj hfind'
                rfl
              obtain ⟨hm1, hm2⟩ := QA.setH_map_facts s.handlers inv.hidDistinct hid
                (fun _ => { h with message_text := h.message_text ++ text }) hfd
              by_cases hg : now - h.last_update_time > 1000
              · have hstep : QA.step s (QA.AEv.chunk now text)
                    = { s with
                          handlers := (setH hid
                            (fun _ => { h with message_text := h.message_text ++ text })
                            s.handlers),
                          ops := s.ops ++ [ChanOp.updateMessage now h.msgId
                            (h.message_text ++ text)],
                          phase := some (QA.Phase.waitFlush hid now) } := by
                  simp [QA.step, hph, hf, hd', ht, hg]
                rw [hstep]
                exact QA.inv_carry2 s _ inv hm1 hm2 rfl rfl rfl rfl rfl rfl
                  (by simp [hph]) (by simp [hph, QA.pendingTexts])
                  (by simp [hph, QA.episodeDebt]) (by simp [hph, QA.currentHid])
                  (by simp)
              · have hstep : QA.step s (QA.AEv.chunk now text)
                    = { s with
                          handlers := (setH hid
                            (fun _ => { h with message_text := h.message_text ++ text })
                            s.handlers) } := by
                  simp [QA.step, hph, hf, hd', ht, hg]
                rw [hstep]
                exact QA.inv_carry2 s _ inv hm1 hm2 rfl rfl rfl rfl rfl rfl
                  (by simp [hph]) (by simp [hph, QA.pendingTexts])
                  (by simp [hph, QA.episodeDebt]) (by simp [hph, QA.currentHid])
                  (by simp [hph])
      all_goals {
        have hstep : QA.step s (QA.AEv.chunk now text) = s := by simp [QA.step, hph]
        rw [hstep]
        exact inv }
  | streamEnd now =>
    cases hph : s.phase with
    | none =>
      have hstep : QA.step s (QA.AEv.streamEnd now) = s := by simp [QA.step, hph]
      rw [hstep]; exact inv
    | some ph =>
      cases ph
      case streaming hid =>
        cases hf : findH hid s.handlers with
        | none =>
          have hstep : QA.step s (QA.AEv.streamEnd now) = s := by
            simp [QA.step, hph, hf]
          rw [hstep]; exact inv
        | some h =>
          by_cases hd : h.is_done = true
          · have hstep : QA.step s (QA.AEv.streamEnd now)
                = QA.finishEpisode h.message_text now s := by
              simp [QA.step, hph, hf, hd]
            rw [hstep]
            exact QA.finishEpisode_inv_done s inv _ now
              (QA.all_done_current s inv hid h (by simp [hph, QA.currentHid]) hf hd)
              (by simp [hph, QA.pendingTexts]) (by simp [hph, QA.episodeDebt])
          · have hd' : h.is_done = false := by simpa using hd
            have hstep : QA.step s (QA.AEv.streamEnd now)
                = { s with ops := s.ops
                       ++ [ChanOp.updateMessage now h.msgId h.message_text],
                           phase := some (QA.Phase.waitFinalWrite hid) } := by
              simp [QA.step, hph, hf, hd']
            rw [hstep]
            exact QA.inv_carry s _ inv rfl rfl rfl rfl rfl rfl rfl (by simp [hph])
              (by simp [hph, QA.pendingTexts]) (by simp [hph, QA.episodeDebt])
              (by simp [hph, QA.currentHid]) (by simp)
      all_goals {
        have hstep : QA.step s (QA.AEv.streamEnd now) = s := by simp [QA.step, hph]
        rw [hstep]
        exact inv }
  | streamError desc now =>
    cases hph : s.phase with
    | none =>
      have hstep : QA.step s (QA.AEv.streamError desc now) = s := by
        simp [QA.step, hph]
      rw [hstep]; exact inv
    | some ph =>
      cases ph
      case streaming hid =>
        cases hf : findH hid s.handlers with
        | none =>
          have hstep : QA.step s (QA.AEv.streamError desc now) = s := by
            simp [QA.step, hph, hf]
          rw [hstep]; exact inv
        | some h =>
          by_cases hd : h.is_done = true
          · have hstep : QA.step s (QA.AEv.streamError desc now)
                = QA.finishEpisode h.message_text now s := by
              simp [QA.step, hph, hf, hd]
            rw [hstep]
            exact QA.finishEpisode_inv_done s inv _ now
              (QA.all_done_current s inv hid h (by simp [hph, QA.currentHid]) hf hd)
              (by simp [hph, QA.pendingTexts]) (by simp [hph, QA.episodeDebt])
          · have hd' : h.is_done = false := by simpa using hd
            have hstep : QA.step s (QA.AEv.streamError desc now)
                = { s with ops := s.ops
                       ++ [ChanOp.indicatorUpdate h.msgId "AI_STATE_ERROR"],
                           phase := some (QA.Phase.waitErrIndicator hid desc) } := by
              simp [QA.step, hph, hf, hd']
            rw [hstep]
            exact QA.inv_carry s _ inv rfl rfl rfl rfl rfl rfl rfl (by simp [hph])
              (by simp [hph, QA.pendingTexts]) (by simp [hph, QA.episodeDebt])
              (by simp [hph, QA.currentHid]) (by simp)
      all_goals {
        have hstep : QA.step s (QA.AEv.streamError desc now) = s := by
          simp [QA.step, hph]
        rw [hstep]
        exact inv }
  | writeDone now =>
    cases hph : s.phase with
    | none =>
      have hstep : QA.step s (QA.AEv.writeDone now) = s := by simp [QA.step, hph]
      rw [hstep]; exact inv
    | some ph =>
      cases ph
      case waitFlush hid flushTime =>
        have hfd : ∀ h', findH hid s.handlers = some h' →
            ((fun h0 : GRH.HandlerState =>
                { h0 with last_update_time := flushTime }) h').is_done
              = h'.is_done := by
          intro h' _
          rfl
        obtain ⟨hm1, hm2⟩ := QA.setH_map_facts s.handlers inv.hidDistinct hid
          (fun h0 : GRH.HandlerState => { h0 with last_update_time := flushTime }) hfd
        have hstep : QA.step s (QA.AEv.writeDone now)
            = { s with
                  handlers := (setH hid
                    (fun h0 : GRH.HandlerState =>
                      { h0 with last_update_time := flushTime }) s.handlers),
                  phase := some (QA.Phase.streaming hid) } := by
          simp [QA.step, hph]
        rw [hstep]
        exact QA.inv_carry2 s _ inv hm1 hm2 rfl rfl rfl rfl rfl rfl
          (by simp [hph]) (by simp [hph, QA.pendingTexts])
          (by simp [hph, QA.episodeDebt]) (by simp [hph, QA.currentHid]) (by simp)
      case waitFinalWrite hid =>
        cases hf : findH hid s.handlers with
        | none =>
          have hstep : QA.step s (QA.AEv.writeDone now) = s := by
            simp [QA.step, hph, hf]
          rw [hstep]; exact inv
        | some h =>
          have hstep : QA.step s (QA.AEv.writeDone now)
              = { s with ops := s.ops ++ [ChanOp.indicatorClear h.msgId],
                         phase := some (QA.Phase.waitClear hid) } := by
            simp [QA.step, hph, hf]
          rw [hstep]
          exact QA.inv_carry s _ inv rfl rfl rfl rfl rfl rfl rfl (by simp [hph])
            (by simp [hph, QA.pendingTexts]) (by simp [hph, QA.episodeDebt])
            (by simp [hph, QA.currentHid]) (by simp)
      case waitErrWrite hid desc =>
        cases hf : findH hid s.handlers with
        | none =>
          have hstep : QA.step s (QA.AEv.writeDone now) = s := by
            simp [QA.step, hph, hf]
          rw [hstep]; exact inv
        | some h =>
          by_cases hd : h.is_done = true
          · have hstep : QA.step s (QA.AEv.writeDone now)
                = QA.finishEpisode h.message_text now s := by
              simp [QA.step, hph, hf, hd]
            rw [hstep]
            exact QA.finishEpisode_inv_done s inv _ now
              (QA.all_done_current s inv hid h (by simp [hph, QA.currentHid]) hf hd)
              (by simp [hph, QA.pendingTexts]) (by simp [hph, QA.episodeDebt])
          · have hd' : h.is_done = false := by simpa using hd
            have hstep : QA.step s (QA.AEv.writeDone now)
                = QA.finishEpisode h.message_text now
                    { s with handlers := removeH hid s.handlers } := by
              simp [QA.step, hph, hf, hd']
            rw [hstep]
            exact QA.finishEpisode_inv_removed s inv hid _ now
              (by simp [hph, QA.currentHid]) (by simp [hph, QA.pendingTexts])
              (by simp [hph, QA.episodeDebt])
      case waitCatchWrite msgId =>
        have hstep : QA.step s (QA.AEv.writeDone now)
            = QA.finishEpisode "" now s := by
          simp [QA.step, hph]
        rw [hstep]
        exact QA.finishEpisode_inv_done s inv _ now
          (QA.no_live_of_cur_none s inv (by simp [hph, QA.currentHid]))
          (by simp [hph, QA.pendingTexts]) (by simp [hph, QA.episodeDebt])
      all_goals {
        have hstep : QA.step s (QA.AEv.writeDone now) = s := by simp [QA.step, hph]
        rw [hstep]
        exact inv }

theorem QA.inv_init : QA.Inv QA.initAgent := by
  refine ⟨rfl, fun _ => rfl, ?_, ?_, ?_, ?_, rfl, ?_, ?_⟩ <;>
    simp [QA.initAgent, userTexts, modelCount, QA.pendingTexts, QA.episodeDebt]

theorem QA.inv_foldl (evs : List QA.AEv) (s : QA.AgentState) (inv : QA.Inv s) :
    QA.Inv (evs.foldl QA.step s) := by
  induction evs generalizing s with
  | nil => exact inv
  | cons ev rest ih => exact ih _ (QA.inv_step s ev inv)

theorem QA.inv_run (evs : List QA.AEv) : QA.Inv (QA.runAgent evs) :=
  QA.inv_foldl evs QA.initAgent QA.inv_init

theorem QA.live_le_one (s : QA.AgentState) (inv : QA.Inv s) :
    (s.handlers.filter live).length ≤ 1 := by
  rcases hl : s.handlers.filter live with _ | ⟨a, tl⟩
  · simp
  · rcases tl with _ | ⟨b, tl2⟩
    · simp
    · exfalso
      have hpw : (s.handlers.filter live).Pairwise (fun x y => x.hid ≠ y.hid) :=
        List.Pairwise.sublist (List.filter_sublist _) inv.hidDistinct
      rw [hl] at hpw
      have hab : a.hid ≠ b.hid := (List.pairwise_cons.mp hpw).1 b (by simp)
      have ha : a ∈ s.handlers ∧ live a = true := by
        have : a ∈ s.handlers.filter live := by rw [hl]; simp
        simpa [List.mem_filter] using this
      have hb : b ∈ s.handlers ∧ live b = true := by
        have : b ∈ s.handlers.filter live := by rw [hl]; simp
        simpa [List.mem_filter] using this
      have h1 := inv.liveCur a ha.1 ha.2
      have h2 := inv.liveCur b hb.1 hb.2
      rw [h1] at h2
      exact hab (Option.some.inj h2)

/-- C1: single-flight invariant of the queuing agent variant - for every
sequence of external events (inbound messages, stop signals, stream
fragments, completions), at every reachable point of execution the agent's
`handlers` array holds at most one response streamer that is not yet done. -/
theorem queuing_single_flight (evs : List QA.AEv) :
    (((QA.runAgent evs).handlers.filter live).length ≤ 1) :=
  QA.live_le_one _ (QA.inv_run evs)

theorem QA.processed_finish (fullText : String) (now : Nat) (s : QA.AgentState) :
    QA.processedTexts (QA.finishEpisode fullText now s) = QA.processedTexts s := by
  by_cases hft : (fullText != "") = true
  · rcases hq : s.messageQueue with _ | ⟨m, rest⟩
    · simp [QA.finishEpisode, hft, hq, QA.processedTexts, userTexts,
        List.filter_append, role_mu_beq, role_user_beq]
    · simp [QA.finishEpisode, QA.startEpisode, hft, hq, QA.processedTexts,
        userTexts, List.filter_append, role_mu_beq, role_user_beq]
  · have hft' : (fullText != "") = false := by simpa using hft
    rcases hq : s.messageQueue with _ | ⟨m, rest⟩
    · simp [QA.finishEpisode, hft', hq, QA.processedTexts]
    · simp [QA.finishEpisode, QA.startEpisode, hft', hq, QA.processedTexts,
        userTexts, List.filter_append, role_mu_beq, role_user_beq]

theorem QA.processed_finish2 (fullText : String) (now : Nat) (s : QA.AgentState) :
    userTexts (QA.finishEpisode fullText now s).chatHistory
      ++ ((QA.finishEpisode fullText now s).messageQueue.map (fun m => m.text))
      = userTexts s.chatHistory ++ (s.messageQueue.map (fun m => m.text)) := by
  have h := QA.processed_finish fullText now s
  simpa [QA.processedTexts] using h

theorem QA.acceptedTexts_cons (ev : QA.AEv) (rest : List QA.AEv) :
    QA.acceptedTexts (ev :: rest)
      = QA.acceptedTexts [ev] ++ QA.acceptedTexts rest := by
  cases ev with
  | inbound m now =>
    by_cases ha : accepts m = true <;> simp [QA.acceptedTexts, ha]
  | stop a b => simp [QA.acceptedTexts]
  | sentMessage a => simp [QA.acceptedTexts]
  | sentEvent a => simp [QA.acceptedTexts]
  | timerDone a => simp [QA.acceptedTexts]
  | attemptOk a => simp [QA.acceptedTexts]
  | attemptErr a b => simp [QA.acceptedTexts]
  | chunk a b => simp [QA.acceptedTexts]
  | streamEnd a => simp [QA.acceptedTexts]
  | streamError a b => simp [QA.acceptedTexts]
  | writeDone a => simp [QA.acceptedTexts]

theorem QA.processed_step (s : QA.AgentState) (ev : QA.AEv) (inv : QA.Inv s) :
    QA.processedTexts (QA.step s ev)
      = QA.processedTexts s ++ QA.acceptedTexts [ev] := by
  cases ev with
  | inbound m now =>
    by_cases ha : accepts m = true
    · by_cases hp : s.isProcessing = true
      · simp [QA.step, ha, hp, QA.processedTexts, QA.acceptedTexts]
      · have hp' : s.isProcessing = false := by simpa using hp
        have hq : s.messageQueue = [] :=
          inv.queueIdle (QA.phase_none_of_not_processing s inv hp')
        simp [QA.step, ha, hp', QA.startEpisode, QA.processedTexts,
          QA.acceptedTexts, hq, userTexts_append_user]
    · have ha' : accepts m = false := by simpa using ha
      simp [QA.step, ha', QA.acceptedTexts]
  | stop evMsgId now =>
    simp [QA.step, QA.stopBroadcast, QA.processedTexts, QA.acceptedTexts]
  | sentMessage msgId =>
    rcases hph : s.phase with _ | ph
    · simp [QA.step, hph, QA.acceptedTexts]
    · cases ph <;>
        (simp only [QA.step, hph]
         repeat' split) <;>
        simp [QA.processedTexts, QA.acceptedTexts, QA.processed_finish2]
  | sentEvent now =>
    rcases hph : s.phase with _ | ph
    · simp [QA.step, hph, QA.acceptedTexts]
    · cases ph <;>
        (simp only [QA.step, hph]
         repeat' split) <;>
        simp [QA.processedTexts, QA.acceptedTexts, QA.processed_finish2]
  | timerDone now =>
    rcases hph : s.phase with _ | ph
    · simp [QA.step, hph, QA.acceptedTexts]
    · cases ph <;>
        (simp only [QA.step, hph]
         repeat' split) <;>
        simp [QA.processedTexts, QA.acceptedTexts, QA.processed_finish2]
  | attemptOk now =>
    rcases hph : s.phase with _ | ph
    · simp [QA.step, hph, QA.acceptedTexts]
    · cases ph <;>
        (simp only [QA.step, hph]
         repeat' split) <;>
        simp [QA.processedTexts, QA.acceptedTexts, QA.processed_finish2]
  | attemptErr desc now =>
    rcases hph : s.phase with _ | ph
    · simp [QA.step, hph, QA.acceptedTexts]
    · cases ph <;>
        (simp only [QA.step, hph]
         repeat' split) <;>
        simp [QA.processedTexts, QA.acceptedTexts, QA.processed_finish2]
  | chunk now text =>
    rcases hph : s.phase with _ | ph
    · simp [QA.step, hph, QA.acceptedTexts]
    · cases ph <;>
        (simp only [QA.step, hph]
         repeat' split) <;>
        simp [QA.processedTexts, QA.acceptedTexts, QA.processed_finish2]
  | streamEnd now =>
    rcases hph : s.phase with _ | ph
    · simp [QA.step, hph, QA.acceptedTexts]
    · cases ph <;>
        (simp only [QA.step, hph]
         repeat' split) <;>
        simp [QA.processedTexts, QA.acceptedTexts, QA.processed_finish2]
  | streamError desc now =>
    rcases hph : s.phase with _ | ph
    · simp [QA.step, hph, QA.acceptedTexts]
    · cases ph <;>
        (simp only [QA.step, hph]
         repeat' split) <;>
        simp [QA.processedTexts, QA.acceptedTexts, QA.processed_finish2]
  | writeDone now =>
    rcases hph : s.phase with _ | ph
    · simp [QA.step, hph, QA.acceptedTexts]
    · cases ph <;>
        (simp only [QA.step, hph]
         repeat' split) <;>
        simp [QA.processedTexts, QA.acceptedTexts, QA.processed_finish2]

theorem QA.finish_invoc (fullText : String) (now : Nat) (s : QA.AgentState) :
    (QA.finishEpisode fullText now s).invocations = s.invocations := by
  by_cases hft : (fullText != "") = true
  · rcases hq : s.messageQueue with _ | ⟨m, rest⟩ <;>
      simp [QA.finishEpisode, QA.startEpisode, hft, hq]
  · have hft' : (fullText != "") = false := by simpa using hft
    rcases hq : s.messageQueue with _ | ⟨m, rest⟩ <;>
      simp [QA.finishEpisode, QA.startEpisode, hft', hq]

theorem QA.finish_api (fullText : String) (now : Nat) (s : QA.AgentState) :
    (QA.finishEpisode fullText now s).apiCallCount = s.apiCallCount := by
  by_cases hft : (fullText != "") = true
  · rcases hq : s.messageQueue with _ | ⟨m, rest⟩ <;>
      simp [QA.finishEpisode, QA.startEpisode, hft, hq]
  · have hft' : (fullText != "") = false := by simpa using hft
    rcases hq : s.messageQueue with _ | ⟨m, rest⟩ <;>
      simp [QA.finishEpisode, QA.startEpisode, hft', hq]

theorem QA.finish_phase (fullText : String) (now : Nat) (s : QA.AgentState)
    (msgId attempt : Nat) :
    (QA.finishEpisode fullText now s).phase
      ≠ some (QA.Phase.waitRetryDelay msgId attempt) := by
  by_cases hft : (fullText != "") = true
  · rcases hq : s.messageQueue with _ | ⟨m, rest⟩ <;>
      simp [QA.finishEpisode, QA.startEpisode, hft, hq]
  · have hft' : (fullText != "") = false := by simpa using hft
    rcases hq : s.messageQueue with _ | ⟨m, rest⟩ <;>
      simp [QA.finishEpisode, QA.startEpisode, hft', hq]

theorem QA.invoc_step (s : QA.AgentState) (ev : QA.AEv)
    (hev : ∀ desc now, ev ≠ QA.AEv.attemptErr desc now)
    (hinv : s.invocations = s.apiCallCount)
    (hnr : ∀ msgId attempt, s.phase ≠ some (QA.Phase.waitRetryDelay msgId attempt)) :
    (QA.step s ev).invocations = (QA.step s ev).apiCallCount
  ∧ ∀ msgId attempt, (QA.step s ev).phase
      ≠ some (QA.Phase.waitRetryDelay msgId attempt) := by
  cases ev with
  | attemptErr desc now => exact absurd rfl (hev desc now)
  | inbound m now =>
    by_cases ha : accepts m = true
    · by_cases hp : s.isProcessing = true
      · refine ⟨?_, ?_⟩ <;> simp [QA.step, ha, hp, hinv, hnr]
      · have hp' : s.isProcessing = false := by simpa using hp
        refine ⟨?_, ?_⟩ <;> simp [QA.step, ha, hp', QA.startEpisode, hinv, hnr]
    · have ha' : accepts m = false := by simpa using ha
      refine ⟨?_, ?_⟩ <;> simp [QA.step, ha', hinv, hnr]
  | stop evMsgId now =>
    refine ⟨?_, ?_⟩ <;> simp [QA.step, QA.stopBroadcast, hinv, hnr]
  | sentMessage msgId =>
    rcases hph : s.phase with _ | ph
    · refine ⟨?_, ?_⟩ <;> simp [QA.step, hph, hinv, hnr]
    · cases ph <;>
        first
        | exact absurd hph (hnr _ _)
        | ((simp only [QA.step, hph]
            repeat' split) <;>
           (refine ⟨?_, ?_⟩ <;>
            simp [hinv, hnr, QA.finish_invoc, QA.finish_api, QA.finish_phase]))
  | sentEvent now =>
    rcases hph : s.phase with _ | ph
    · refine ⟨?_, ?_⟩ <;> simp [QA.step, hph, hinv, hnr]
    · cases ph <;>
        first
        | exact absurd hph (hnr _ _)
        | ((simp only [QA.step, hph]
            repeat' split) <;>
           (refine ⟨?_, ?_⟩ <;>
            simp [hinv, hnr, QA.finish_invoc, QA.finish_api, QA.finish_phase]))
  | timerDone now =>
    rcases hph : s.phase with _ | ph
    · refine ⟨?_, ?_⟩ <;> simp [QA.step, hph, hinv, hnr]
    · cases ph <;>
        first
        | exact absurd hph (hnr _ _)
        | ((simp only [QA.step, hph]
            repeat' split) <;>
           (refine ⟨?_, ?_⟩ <;>
            simp [hinv, hnr, QA.finish_invoc, QA.finish_api, QA.finish_phase]))
  | attemptOk now =>
    rcases hph : s.phase with _ | ph
    · refine ⟨?_, ?_⟩ <;> simp [QA.step, hph, hinv, hnr]
    · cases ph <;>
        first
        | exact absurd hph (hnr _ _)
        | ((simp only [QA.step, hph]
            repeat' split) <;>
           (refine ⟨?_, ?_⟩ <;>
            simp [hinv, hnr, QA.finish_invoc, QA.finish_api, QA.finish_phase]))
  | chunk now text =>
    rcases hph : s.phase with _ | ph
    · refine ⟨?_, ?_⟩ <;> simp [QA.step, hph, hinv, hnr]
    · cases ph <;>
        first
        | exact absurd hph (hnr _ _)
        | ((simp only [QA.step, hph]
            repeat' split) <;>
           (refine ⟨?_, ?_⟩ <;>
            simp [hinv, hnr, QA.finish_invoc, QA.finish_api, QA.finish_phase]))
  | streamEnd now =>
    rcases hph : s.phase with _ | ph
    · refine ⟨?_, ?_⟩ <;> simp [QA.step, hph, hinv, hnr]
    · cases ph <;>
        first
        | exact absurd hph (hnr _ _)
        | ((simp only [QA.step, hph]
            repeat' split) <;>
           (refine ⟨?_, ?_⟩ <;>
            simp [hinv, hnr, QA.finish_invoc, QA.finish_api, QA.finish_phase]))
  | streamError desc now =>
    rcases hph : s.phase with _ | ph
    · refine ⟨?_, ?_⟩ <;> simp [QA.step, hph, hinv, hnr]
    · cases ph <;>
        first
        | exact absurd hph (hnr _ _)
        | ((simp only [QA.step, hph]
            repeat' split) <;>
           (refine ⟨?_, ?_⟩ <;>
            simp [hinv, hnr, QA.finish_invoc, QA.finish_api, QA.finish_phase]))
  | writeDone now =>
    rcases hph : s.phase with _ | ph
    · refine ⟨?_, ?_⟩ <;> simp [QA.step, hph, hinv, hnr]
    · cases ph <;>
        first
        | exact absurd hph (hnr _ _)
        | ((simp only [QA.step, hph]
            repeat' split) <;>
           (refine ⟨?_, ?_⟩ <;>
            simp [hinv, hnr, QA.finish_invoc, QA.finish_api, QA.finish_phase]))

theorem QA.invoc_foldl (evs : List QA.AEv) (s : QA.AgentState)
    (hnoerr : QA.noAttemptErr evs = true)
    (hinv : s.invocations = s.apiCallCount)
    (hnr : ∀ msgId attempt, s.phase ≠ some (QA.Phase.waitRetryDelay msgId attempt)) :
    (evs.foldl QA.step s).invocations = (evs.foldl QA.step s).apiCallCount := by
  induction evs generalizing s with
  | nil => exact hinv
  | cons ev rest ih =>
    have hev : ∀ desc now, ev ≠ QA.AEv.attemptErr desc now := by
      intro desc now he
      rw [he] at hnoerr
      simp [QA.noAttemptErr] at hnoerr
    have hrest : QA.noAttemptErr rest = true := by
      simp only [QA.noAttemptErr, List.all_cons, Bool.and_eq_true] at hnoerr ⊢
      exact hnoerr.2
    obtain ⟨h1, h2⟩ := QA.invoc_step s ev hev hinv hnr
    exact ih (QA.step s ev) hrest h1 h2

theorem QA.processed_foldl (evs : List QA.AEv) (s : QA.AgentState) (inv : QA.Inv s) :
    QA.processedTexts (evs.foldl QA.step s)
      = QA.processedTexts s ++ QA.acceptedTexts evs := by
  induction evs generalizing s with
  | nil => simp [QA.acceptedTexts]
  | cons ev rest ih =>
    have h1 := QA.processed_step s ev inv
    have h2 := ih (QA.step s ev) (QA.inv_step s ev inv)
    simp only [List.foldl_cons]
    rw [h2, h1, List.append_assoc]
    congr 1
    exact (QA.acceptedTexts_cons ev rest).symm

/-- C2: for every event sequence in which every upstream-call attempt
succeeds (no rate-limit retries) and which drives the queuing agent to
quiescence (no `processMessage` in flight - in particular for any number
of accepted messages arriving while earlier ones are still processing,
since queued messages are drained before the agent goes idle), the user
turns of the conversation history are exactly the accepted inbound texts
in arrival order, the upstream-call trace equals that same list (calls are
issued in arrival order, FIFO), the call counter and the number of
`generateContentStream` invocations both equal the number N of accepted
messages, the history holds at most N model turns, and every model turn is
non-empty (a model turn is appended only when the streamer's returned text
is non-empty). -/
theorem queuing_fifo_exact_calls (evs : List QA.AEv)
    (hquiet : (QA.runAgent evs).phase = none)
    (hnoerr : QA.noAttemptErr evs = true) :
    userTexts (QA.runAgent evs).chatHistory = QA.acceptedTexts evs
  ∧ (QA.runAgent evs).callsTrace = QA.acceptedTexts evs
  ∧ (QA.runAgent evs).apiCallCount = (QA.acceptedTexts evs).length
  ∧ (QA.runAgent evs).invocations = (QA.acceptedTexts evs).length
  ∧ modelCount (QA.runAgent evs).chatHistory ≤ (QA.acceptedTexts evs).length
  ∧ (∀ t ∈ (QA.runAgent evs).chatHistory, t.role = Role.model → t.text ≠ "") := by
  have inv := QA.inv_run evs
  have hqe : (QA.runAgent evs).messageQueue = [] := inv.queueIdle hquiet
  have hproc : QA.processedTexts (QA.runAgent evs) = QA.acceptedTexts evs := by
    have h := QA.processed_foldl evs QA.initAgent QA.inv_init
    have hinit : QA.processedTexts QA.initAgent = [] := rfl
    rw [hinit] at h
    simpa [QA.runAgent] using h
  have huser : userTexts (QA.runAgent evs).chatHistory = QA.acceptedTexts evs := by
    have h := hproc
    rw [QA.processedTexts, hqe] at h
    simpa using h
  have hcalls : (QA.runAgent evs).callsTrace = QA.acceptedTexts evs := by
    have h := inv.callsHist
    rw [hquiet] at h
    simp only [QA.pendingTexts, List.append_nil] at h
    rw [← h, huser]
  have hapi : (QA.runAgent evs).apiCallCount = (QA.acceptedTexts evs).length := by
    rw [inv.callsCount, hcalls]
  refine ⟨huser, hcalls, hapi, ?_, ?_, inv.modelNonempty⟩
  · have h := QA.invoc_foldl evs QA.initAgent hnoerr rfl (by intro m a hc; cases hc)
    have h' : (QA.runAgent evs).invocations = (QA.runAgent evs).apiCallCount := by
      simpa [QA.runAgent] using h
    rw [h', hapi]
  · have h := inv.modelDebt
    rw [hquiet] at h
    simp only [QA.episodeDebt, Nat.add_zero] at h
    rw [hapi] at h
    exact h

/-- Witness for C2: two messages "A" and "B" arriving back-to-back ("B"
queues while "A" is processed) produce exactly two calls in arrival
order, two user turns, one non-empty model turn, and two invocations. -/
theorem queuing_fifo_exact_calls_witness :
    userTexts (QA.runAgent QA.demoEvs).chatHistory = QA.acceptedTexts QA.demoEvs
  ∧ (QA.runAgent QA.demoEvs).callsTrace = QA.acceptedTexts QA.demoEvs
  ∧ (QA.runAgent QA.demoEvs).apiCallCount = (QA.acceptedTexts QA.demoEvs).length
  ∧ (QA.runAgent QA.demoEvs).invocations = (QA.acceptedTexts QA.demoEvs).length := by
  have h := queuing_fifo_exact_calls QA.demoEvs (by decide) (by decide)
  exact ⟨h.1, h.2.1, h.2.2.1, h.2.2.2.1⟩

/-- C10: when the fragment stream throws after accumulating fragments,
`run` returns the partial accumulated text (the concatenation of the
delivered fragments) even though the channel operations end by overwriting
the target message with the error description; and at the agent level,
from a streaming state whose handler holds non-empty partial text, the
error path appends that partial text to the conversation history as a
model turn while the last message write carries the error text - recorded
history and the displayed message diverge. -/
theorem partial_text_history_divergence (msgId tEnd : Nat) (desc : String)
    (frags : List (Nat × String)) (s : QA.AgentState) (hid : Nat)
    (h : GRH.HandlerState) (d1 d2 d3 : Nat)
    (hph : s.phase = some (QA.Phase.streaming hid))
    (hfind : findH hid s.handlers = some h)
    (hnd : h.is_done = false)
    (hq : s.messageQueue = [])
    (hne : (h.message_text != "") = true) :
    (GRH.run frags (GRH.StreamEnd.error tEnd desc) (GRH.initHandler msgId)).1
      = concatTexts frags
  ∧ ((QA.step (QA.step (QA.step s (QA.AEv.streamError desc d1))
        (QA.AEv.sentEvent d2)) (QA.AEv.writeDone d3)).chatHistory
      = s.chatHistory ++ [{ role := Role.model, text := h.message_text }])
  ∧ ((QA.step (QA.step (QA.step s (QA.AEv.streamError desc d1))
        (QA.AEv.sentEvent d2)) (QA.AEv.writeDone d3)).ops
      = s.ops ++ [ChanOp.indicatorUpdate h.msgId "AI_STATE_ERROR",
                  ChanOp.updateMessage d2 h.msgId
                    (if desc = "" then "Error generating the message" else desc)]) := by
  have h1 : QA.step s (QA.AEv.streamError desc d1)
      = { s with ops := s.ops ++ [ChanOp.indicatorUpdate h.msgId "AI_STATE_ERROR"],
                 phase := some (QA.Phase.waitErrIndicator hid desc) } := by
    simp [QA.step, hph, hfind, hnd]
  have h2 : QA.step { s with
        ops := s.ops ++ [ChanOp.indicatorUpdate h.msgId "AI_STATE_ERROR"],
        phase := some (QA.Phase.waitErrIndicator hid desc) } (QA.AEv.sentEvent d2)
      = { s with
          ops := (s.ops ++ [ChanOp.indicatorUpdate h.msgId "AI_STATE_ERROR"])
            ++ [ChanOp.updateMessage d2 h.msgId
                 (if desc = "" then "Error generating the message" else desc)],
          phase := some (QA.Phase.waitErrWrite hid desc) } := by
    simp [QA.step, hfind]
  have h3 : QA.step { s with
        ops := (s.ops ++ [ChanOp.indicatorUpdate h.msgId "AI_STATE_ERROR"])
          ++ [ChanOp.updateMessage d2 h.msgId
               (if desc = "" then "Error generating the message" else desc)],
        phase := some (QA.Phase.waitErrWrite hid desc) } (QA.AEv.writeDone d3)
      = QA.finishEpisode h.message_text d3 { s with
          handlers := removeH hid s.handlers,
          ops := (s.ops ++ [ChanOp.indicatorUpdate h.msgId "AI_STATE_ERROR"])
            ++ [ChanOp.updateMessage d2 h.msgId
                 (if desc = "" then "Error generating the message" else desc)],
          phase := some (QA.Phase.waitErrWrite hid desc) } := by
    simp [QA.step, hfind, hnd]
  have h4 : QA.finishEpisode h.message_text d3 { s with
        handlers := removeH hid s.handlers,
        ops := (s.ops ++ [ChanOp.indicatorUpdate h.msgId "AI_STATE_ERROR"])
          ++ [ChanOp.updateMessage d2 h.msgId
               (if desc = "" then "Error generating the message" else desc)],
        phase := some (QA.Phase.waitErrWrite hid desc) }
      = { s with
          chatHistory := s.chatHistory
            ++ [{ role := Role.model, text := h.message_text }],
          handlers := removeH hid s.handlers,
          ops := (s.ops ++ [ChanOp.indicatorUpdate h.msgId "AI_STATE_ERROR"])
            ++ [ChanOp.updateMessage d2 h.msgId
                 (if desc = "" then "Error generating the message" else desc)],
          isProcessing := false,
          phase := none } := by
    simp [QA.finishEpisode, hne, hq]
  refine ⟨(GRH.run_error_init msgId tEnd desc frags).1, ?_, ?_⟩
  · rw [h1, h2, h3, h4]
  · rw [h1, h2, h3, h4]
    simp

/-- Witness for C10 at a concrete state: the handler has accumulated
"par"; after the stream throws "boom", history gains the model turn "par"
while the final write to message 9 says "boom". -/
theorem partial_text_history_divergence_witness :
    ((QA.step (QA.step (QA.step QA.divergenceState (QA.AEv.streamError "boom" 0))
        (QA.AEv.sentEvent 0)) (QA.AEv.writeDone 0)).chatHistory
      = [{ role := Role.user, text := "Q" }, { role := Role.model, text := "par" }])
  ∧ ((QA.step (QA.step (QA.step QA.divergenceState (QA.AEv.streamError "boom" 0))
        (QA.AEv.sentEvent 0)) (QA.AEv.writeDone 0)).ops
      = [ChanOp.indicatorUpdate 9 "AI_STATE_ERROR",
         ChanOp.updateMessage 0 9 "boom"]) := by
  have h := partial_text_history_divergence 0 0 "boom" [] QA.divergenceState 0
    { msgId := 9, message_text := "par", is_done := false, last_update_time := 0,
      listenerOn := true, onDisposeCalled := false }
    0 0 0 rfl rfl rfl rfl rfl
  exact ⟨h.2.1.trans (by decide), h.2.2.trans (by decide)⟩

/-- C9: in the non-queuing agent variant, an accepted inbound message is
processed immediately and unconditionally - the user turn is appended to
the shared history and a fresh `handleMessage` invocation is spawned, with
no processing flag consulted, no queue, and no drop - in every state, even
while another invocation is in flight; concretely, a second message
arriving while the first call streams yields two simultaneously live
response handlers over the same history. -/
theorem nonqueuing_unconditional_overlap :
    (∀ (s : V1.AgentState) (m : Msg) (now : Nat), accepts m = true →
        (V1.step s (V1.AEv.inbound m now)).chatHistory
          = s.chatHistory ++ [{ role := Role.user, text := m.text }]
      ∧ (V1.step s (V1.AEv.inbound m now)).coros
          = s.coros ++ [{ cid := s.nextCid, phase := V1.Phase.waitSendMessage }]
      ∧ (V1.step s (V1.AEv.inbound m now)).handlers = s.handlers)
  ∧ (((V1.runAgent V1.overlapEvs).handlers.filter live).length = 2
      ∧ (V1.runAgent V1.overlapEvs).coros
          = [{ cid := 0, phase := V1.Phase.streaming 0 },
             { cid := 1, phase := V1.Phase.streaming 1 }]
      ∧ userTexts (V1.runAgent V1.overlapEvs).chatHistory = ["A", "B"]) := by
  constructor
  · intro s m now ha
    refine ⟨?_, ?_, ?_⟩ <;> simp [V1.step, ha]
  · refine ⟨by decide, by decide, by decide⟩

/-- Witness for C9: delivering an accepted message to the freshly
initialized non-queuing agent immediately appends the user turn and spawns
an invocation. -/
theorem nonqueuing_unconditional_overlap_witness :
    (V1.step V1.initAgent
        (V1.AEv.inbound { fromSelf := false, aiGenerated := false, text := "hi" } 3)).chatHistory
      = [{ role := Role.user, text := "hi" }]
  ∧ (V1.step V1.initAgent
        (V1.AEv.inbound { fromSelf := false, aiGenerated := false, text := "hi" } 3)).coros
      = [{ cid := 0, phase := V1.Phase.waitSendMessage }] := by
  have h := nonqueuing_unconditional_overlap.1 V1.initAgent
    { fromSelf := false, aiGenerated := false, text := "hi" } 3 (by decide)
  exact ⟨h.1.trans (by decide), h.2.1.trans (by decide)⟩

/-- Witness for C3: fragments "a" at 2000 ms and "b" at 2500 ms produce
one throttled intermediate write ("a"), then the final write of the full
concatenation "ab" followed by the indicator-clear event. -/
theorem streamer_throttled_flush_and_final_concat_witness :
    (GRH.run [(2000, "a"), (2500, "b")] (GRH.StreamEnd.normal 9)
        (GRH.initHandler 4)).1 = "ab"
  ∧ (GRH.run [(2000, "a"), (2500, "b")] (GRH.StreamEnd.normal 9)
        (GRH.initHandler 4)).2.2
      = [ChanOp.updateMessage 2000 4 "a", ChanOp.updateMessage 9 4 "ab",
         ChanOp.indicatorClear 4] := by
  have h := streamer_throttled_flush_and_final_concat 4 9 [(2000, "a"), (2500, "b")]
  exact ⟨h.1.trans (by decide), h.2.1.trans (by decide)⟩

/-- Witness for C7: with fragments "x" (at 50 ms) then an exception "kb
exploded", run returns "x" while the trace ends with the error indicator
and the overwrite of the target message by the error description. -/
theorem streamer_upstream_error_contained_witness :
    (GRH.run [(50, "x")] (GRH.StreamEnd.error 60 "kb exploded")
        (GRH.initHandler 8)).1 = "x"
  ∧ (GRH.run [(50, "x")] (GRH.StreamEnd.error 60 "kb exploded")
        (GRH.initHandler 8)).2.2
      = [ChanOp.indicatorUpdate 8 "AI_STATE_ERROR",
         ChanOp.updateMessage 60 8 "kb exploded"] := by
  have h := streamer_upstream_error_contained 8 60 "kb exploded" [(50, "x")]
  exact ⟨h.2.1.trans (by decide), h.1.trans (by decide)⟩
